import Mathlib

/-!
Verification of the cricket over-level prediction pipeline
(`ml_models/`: `config.py`, `data_loader.py`, `model_trainer.py`,
`model_deployer.py`).

The Python code is shallowly embedded: pandas frames become explicit
column-oriented structures over `ℚ` (IEEE floats are idealised as exact
rationals, and `NaN` as `Option.none` — every comparison against `NaN`
is false, which is exactly how the claims under study exercise it);
fallible code returns `Except String`; the stateful `self.scaler` of
`CricketDataLoader` is modelled relationally because its fitted scale is
an (irrational) square root.
-/

namespace CricketML

/-! ## List statistics

`meanPop`/`varPop` are the population statistics used by sklearn's
`StandardScaler` (`ddof = 0`); `skMean`/`skVar` are the NaN-skipping
pandas statistics (`Series.mean`, `Series.std(ddof=1)`) used by
`_handle_outliers`, returning `none` where pandas returns `NaN`. -/

/-- Population mean of a list of rationals (`0` for the empty list,
mirroring an unreachable branch). -/
def meanPop (l : List ℚ) : ℚ := l.sum / (l.length : ℚ)

/-- Population variance (`ddof = 0`), as computed by sklearn's
`StandardScaler.fit`. -/
def varPop (l : List ℚ) : ℚ :=
  ((l.map (fun x => (x - meanPop l) ^ 2)).sum) / (l.length : ℚ)

/-- The non-missing values of a column, in order: pandas skips `NaN`
when computing column statistics. -/
def presentVals (l : List (Option ℚ)) : List ℚ := l.filterMap id

/-- pandas `Series.mean` (skipna): `none` when no value is present,
which pandas reports as `NaN`. -/
def skMean (l : List (Option ℚ)) : Option ℚ :=
  let p := presentVals l
  if p.length = 0 then none else some (meanPop p)

/-- pandas sample variance (`Series.std(ddof=1)` squared, skipna):
`none` (pandas `NaN`) when fewer than two values are present. -/
def skVar (l : List (Option ℚ)) : Option ℚ :=
  let p := presentVals l
  if p.length ≤ 1 then none
  else some (((p.map (fun x => (x - meanPop p) ^ 2)).sum) / ((p.length : ℚ) - 1))

/-- Insert into an ascending list (stable insertion sort step). -/
def insertAsc [LE α] [DecidableRel (fun a b : α => a ≤ b)] (x : α) : List α → List α
  | [] => [x]
  | y :: t => if x ≤ y then x :: y :: t else y :: insertAsc x t

/-- Ascending sort (structural insertion sort, matching the order
`np.sort`/`np.unique` produce). -/
def sortAsc [LE α] [DecidableRel (fun a b : α => a ≤ b)] (l : List α) : List α :=
  l.foldr insertAsc []

/-- Sorted copy of a list of rationals (ascending). -/
def sortedVals (l : List ℚ) : List ℚ := sortAsc l

/-- Median of a list of rationals, as sklearn's `SimpleImputer`
(median strategy) computes it: the middle element, or the average of
the two middle elements. `0` for the empty list (unreachable: an
all-missing column has missing ratio `1 > 0.3` and is dropped before
imputation). -/
def listMedian (l : List ℚ) : ℚ :=
  let s := sortedVals l
  let n := s.length
  if n = 0 then 0
  else if n % 2 = 1 then s.getD (n / 2) 0
  else (s.getD (n / 2 - 1) 0 + s.getD (n / 2) 0) / 2

/-- pandas `Series.quantile(q)` with the default linear interpolation,
over the non-missing values: position `q * (n - 1)`, linearly
interpolated between the two neighbouring order statistics. `none` when
no value is present. -/
def quantileLinear (l : List (Option ℚ)) (q : ℚ) : Option ℚ :=
  let p := sortedVals (presentVals l)
  let n := p.length
  if n = 0 then none
  else
    let h : ℚ := q * ((n : ℚ) - 1)
    let lo : ℕ := h.floor.toNat
    let frac : ℚ := h - (h.floor : ℚ)
    some (p.getD lo 0 + frac * (p.getD (lo + 1) (p.getD lo 0) - p.getD lo 0))

/-! ## Schema Registry (`config.py`) -/

/-- Task type of a prediction target (`config.Config.TARGET_FEATURES`
`type` field). -/
inductive TaskType where
  | classification
  | regression
  deriving DecidableEq, Repr

/-- One entry of `Config.TARGET_FEATURES`. -/
structure TargetSpec where
  type : TaskType
  target_column : String
  threshold : Option ℚ
  deriving DecidableEq, Repr

/-- `Config.TARGET_FEATURES`: the four registered prediction targets. -/
def targetFeatures : List (String × TargetSpec) :=
  [ ("wicket_occurrence",
      ⟨TaskType.classification, "overWickets", some 1⟩),
    ("runs_per_over",
      ⟨TaskType.regression, "overRuns", none⟩),
    ("boundary_probability",
      ⟨TaskType.classification, "overBoundaries", some 1⟩),
    ("run_rate_change",
      ⟨TaskType.regression, "runRate", none⟩) ]

/-- `Config.NUMERICAL_FEATURES`. -/
def numericalFeatures : List String :=
  [ "overRuns", "overWickets", "overBalls", "overExtras",
    "overBoundaries", "overSixes",
    "totalRuns", "totalWickets", "totalOvers", "runRate",
    "requiredRunRate",
    "momentum.recentRunRate", "momentum.wicketsInHand",
    "momentum.pressureIndex",
    "momentum.partnershipRuns", "momentum.partnershipBalls",
    "batsmanStats.striker.runs", "batsmanStats.striker.balls",
    "batsmanStats.striker.strikeRate",
    "batsmanStats.nonStriker.runs", "batsmanStats.nonStriker.balls",
    "batsmanStats.nonStriker.strikeRate",
    "bowlerStats.runs", "bowlerStats.wickets", "bowlerStats.balls",
    "bowlerStats.economyRate", "bowlerStats.dotBalls" ]

/-- `Config.CATEGORICAL_FEATURES`. -/
def categoricalFeatures : List String :=
  ["teamBatting", "teamBowling", "venue", "format", "series"]

/-- `Config.TEST_SIZE`. -/
def testSizeDefault : ℚ := 1 / 5

/-- `Config.VALIDATION_SIZE`. -/
def validationSizeDefault : ℚ := 1 / 5

/-- `Config.CV_FOLDS`. -/
def cvFolds : ℕ := 5

/-- `Config.MAX_MISSING_RATIO`. -/
def maxMissingRatio : ℚ := 3 / 10

/-- `Config.OUTLIER_THRESHOLD` (z-score threshold). -/
def outlierThreshold : ℚ := 3

/-! ## Frame model

A pandas `DataFrame` becomes a list of named, dtyped columns. `num`
columns hold `Option ℚ` cells (`none` = `NaN`); `obj` columns hold
`Option String`; `boolean` columns are NaN-free; `datetime64` columns
only ever get excluded, so their payload is irrelevant; `nested`
columns hold the per-row dicts that `_flatten_nested_features`
expands (leaf paths pre-joined with dots, as `pd.json_normalize`
produces them). -/

/-- Cells of one column, tagged by dtype. -/
inductive ColData where
  | num (cells : List (Option ℚ))
  | obj (cells : List (Option String))
  | boolean (cells : List Bool)
  | datetime (cells : List (Option ℚ))
  | nested (cells : List (List (String × Option ℚ)))
  deriving DecidableEq, Repr

/-- The cell list of a numeric column, `none` for other dtypes. -/
def ColData.num? : ColData → Option (List (Option ℚ))
  | .num cs => some cs
  | _ => none

/-- Number of cells of a column. -/
def ColData.len : ColData → ℕ
  | .num cs => cs.length
  | .obj cs => cs.length
  | .boolean cs => cs.length
  | .datetime cs => cs.length
  | .nested cs => cs.length

/-- A named column. -/
structure Col where
  name : String
  data : ColData
  deriving DecidableEq, Repr

/-- A pandas DataFrame: ordered named columns. -/
structure Frame where
  cols : List Col
  deriving DecidableEq, Repr

/-- Column names, in order. -/
def Frame.names (f : Frame) : List String := f.cols.map Col.name

/-- Row count: the length of the first column (a frame with no columns
has zero rows in this model). -/
def Frame.nrows (f : Frame) : ℕ :=
  match f.cols with
  | [] => 0
  | c :: _ => c.data.len

/-- Rectangularity: every column has `nrows` cells. -/
def Frame.WF (f : Frame) : Prop := ∀ c ∈ f.cols, c.data.len = f.nrows

instance (f : Frame) : Decidable f.WF := by
  unfold Frame.WF; infer_instance

/-- Look up a column by name (first match, as pandas column labels are
unique here). -/
def Frame.getCol? (f : Frame) (name : String) : Option Col :=
  f.cols.find? (fun c => c.name = name)

/-- `df[name] = data`: overwrite the column in place if the label
exists, else append it as the last column. -/
def Frame.setCol (f : Frame) (name : String) (d : ColData) : Frame :=
  if f.cols.any (fun c => c.name = name) then
    ⟨f.cols.map (fun c => if c.name = name then ⟨name, d⟩ else c)⟩
  else
    ⟨f.cols ++ [⟨name, d⟩]⟩

/-- `df.drop(columns=...)`. -/
def Frame.dropCols (f : Frame) (names : List String) : Frame :=
  ⟨f.cols.filter (fun c => ¬ names.contains c.name)⟩

/-! ## Cell comparison helpers

Python comparisons against `NaN` are false; `none` cells therefore
fail every comparison. -/

/-- `x <= k` on a possibly-missing cell (`NaN <= k` is false). -/
def optLe (c : Option ℚ) (k : ℚ) : Bool :=
  match c with
  | some x => x ≤ k
  | none => false

/-- `x >= k` on a possibly-missing cell (`NaN >= k` is false). -/
def optGe (c : Option ℚ) (k : ℚ) : Bool :=
  match c with
  | some x => x ≥ k
  | none => false

/-- `a <= x <= b` on a possibly-missing cell. -/
def optBetween (a : ℚ) (c : Option ℚ) (b : ℚ) : Bool :=
  match c with
  | some x => a ≤ x ∧ x ≤ b
  | none => false

/-- Elementwise subtraction of two cell columns (`NaN` propagates). -/
def optZipSub (l r : List (Option ℚ)) : List (Option ℚ) :=
  List.zipWith (fun a b =>
    match a, b with
    | some x, some y => some (x - y)
    | _, _ => none) l r

/-- Elementwise division of two cell columns. `NaN` propagates; a zero
denominator produces a non-finite float in the source, modelled as a
missing cell (no claim exercises that value). -/
def optZipDiv (l r : List (Option ℚ)) : List (Option ℚ) :=
  List.zipWith (fun a b =>
    match a, b with
    | some x, some y => if y = 0 then none else some (x / y)
    | _, _ => none) l r

/-- View a column as numeric cells, the way pandas arithmetic accepts
it: numeric columns as-is, boolean columns as 0/1; arithmetic or
ordered comparison on object/datetime/nested payloads raises
`TypeError` in the source. -/
def numCellsE : ColData → Except String (List (Option ℚ))
  | .num cs => .ok cs
  | .boolean cs => .ok (cs.map (fun b => some (if b then 1 else 0)))
  | _ => .error "TypeError"

/-! ## Feature Normalizer (`data_loader.CricketDataLoader`) -/

/-- Leaf-key order of `pd.json_normalize` over the rows of a nested
column: union of keys in order of first appearance. -/
def nestedKeys (cells : List (List (String × Option ℚ))) : List String :=
  cells.foldl
    (fun acc row =>
      row.foldl (fun acc2 kv => if acc2.contains kv.1 then acc2 else acc2 ++ [kv.1]) acc)
    []

/-- One iteration of `_flatten_nested_features`: if the named column is
present (holding per-row dicts), append one `name.leaf` numeric column
per leaf key (rows missing the key get `NaN`), then drop the original
column. Absent columns are left alone. -/
def flattenNestedOne (f : Frame) (name : String) : Frame :=
  match f.getCol? name with
  | some c =>
    match c.data with
    | .nested cells =>
      let newCols := (nestedKeys cells).map (fun k =>
        Col.mk (name ++ "." ++ k) (.num (cells.map (fun row => (row.lookup k).join))))
      ⟨(f.cols ++ newCols).filter (fun col => col.name ≠ name)⟩
    | _ => f
  | none => f

/-- `_flatten_nested_features`: expand the five declared nested groups
in order. -/
def flattenNestedFeatures (f : Frame) : Frame :=
  ["batsmanStats", "bowlerStats", "momentum", "matchContext", "dataQuality"].foldl
    flattenNestedOne f

/-- Count of missing cells of a column (`df[col].isnull().sum()`). -/
def ColData.naCount : ColData → ℕ
  | .num cs => (cs.filter Option.isNone).length
  | .obj cs => (cs.filter Option.isNone).length
  | .boolean _ => 0
  | .datetime cs => (cs.filter Option.isNone).length
  | .nested _ => 0

/-- Missing ratio `isnull().sum() / len(df)`: for an empty frame the
float quotient `0 / 0` is `NaN`, modelled as `none` (so the `> 0.3`
drop test is false, as `NaN > 0.3` is). -/
def missingRatio (c : Col) (n : ℕ) : Option ℚ :=
  if n = 0 then none else some ((c.data.naCount : ℚ) / (n : ℚ))

/-- Whether `_handle_missing_values` drops the column. -/
def dropForMissing (c : Col) (n : ℕ) : Bool :=
  match missingRatio c n with
  | some r => r > maxMissingRatio
  | none => false

/-- Median imputation of one column, as `SimpleImputer(strategy='median')`
fit on the current batch performs it. Only numeric columns are imputed;
object columns are filled with the literal `"Unknown"` sentinel. -/
def imputeCol (c : Col) : Col :=
  match c.data with
  | .num cs =>
    let m := listMedian (presentVals cs)
    ⟨c.name, .num (cs.map (fun cell => some (cell.getD m)))⟩
  | .obj cs => ⟨c.name, .obj (cs.map (fun cell => some (cell.getD "Unknown")))⟩
  | d => ⟨c.name, d⟩

/-- `_handle_missing_values`: drop columns whose missing ratio exceeds
`MAX_MISSING_RATIO`, then impute. `SimpleImputer.fit_transform` raises
`ValueError` on a zero-row input, so a zero-row frame that still has
numeric columns is an error; with no numeric column the imputer is
never invoked. -/
def handleMissingValues (f : Frame) : Except String Frame :=
  let n := f.nrows
  let kept := f.cols.filter (fun c => ¬ dropForMissing c n)
  let hasNum := kept.any (fun c => match c.data with | .num _ => true | _ => false)
  if hasNum && n == 0 then
    .error "Found array with 0 sample(s) while a minimum of 1 is required by SimpleImputer"
  else
    .ok ⟨kept.map imputeCol⟩

/-- Outlier mask of one cell against its column statistics: the source
computes `|x - mean| / std > 3` with pandas (NaN-skipping, `ddof = 1`)
statistics. To stay in `ℚ` the test is squared:
for `std > 0`, `|x - mean| / std > 3  ↔  (x - mean)^2 > 3^2 * var`.
When `mean` or `std` is `NaN` (no values / a single value) the float
z-score is `NaN` and the mask is false; when `std = 0` the z-score is
`0 / 0 = NaN`, and indeed `(x - mean)^2 > 9 * 0` is false because every
present cell then equals the mean. Missing cells have `NaN` z-scores:
false. -/
def outlierMask (m v : Option ℚ) (cell : Option ℚ) : Bool :=
  match cell, m, v with
  | some x, some mu, some vr => (x - mu) ^ 2 > outlierThreshold ^ 2 * vr
  | _, _, _ => false

/-- Clip to `[lower, upper]` as `Series.clip(lower, upper)` does. -/
def clipQ (lower upper x : ℚ) : ℚ := min upper (max lower x)

/-- `_handle_outliers` on one column: only numeric columns named in
`NUMERICAL_FEATURES` are touched; cells whose z-score exceeds the
threshold are clipped to the `[5th, 95th]` percentile band, the rest
are untouched. -/
def outlierCol (c : Col) : Col :=
  match c.data with
  | .num cs =>
    if c.name ∈ numericalFeatures then
      let m := skMean cs
      let v := skVar cs
      if cs.any (outlierMask m v) then
        let lower := (quantileLinear cs (1 / 20)).getD 0
        let upper := (quantileLinear cs (19 / 20)).getD 0
        ⟨c.name, .num (cs.map (fun cell =>
          if outlierMask m v cell then cell.map (clipQ lower upper) else cell))⟩
      else c
    else c
  | _ => c

/-- `_handle_outliers`: applied column by column. -/
def handleOutliers (f : Frame) : Frame := ⟨f.cols.map outlierCol⟩

/-- `str(x)` on a cell: `astype(str)` renders a missing value as the
literal string `"nan"`. -/
def strCell (c : Option String) : String := c.getD "nan"

/-- Insertion-order deduplication. -/
def dedup (l : List String) : List String :=
  l.foldl (fun acc s => if acc.contains s then acc else acc ++ [s]) []

/-- `LabelEncoder.fit_transform`: classes are the sorted distinct
values; each value is replaced by the index of its class. -/
def labelEncode (vals : List String) : List (Option ℚ) :=
  let classes := sortAsc (dedup vals)
  vals.map (fun v => some ((classes.findIdx (fun s => s = v)) : ℚ))

/-- `_encode_categorical_features`: object columns named in
`CATEGORICAL_FEATURES` are label-encoded (after `astype(str)`) into
integer columns; everything else is untouched. -/
def encodeCategoricalFeatures (f : Frame) : Frame :=
  ⟨f.cols.map (fun c =>
    match c.data with
    | .obj cs =>
      if c.name ∈ categoricalFeatures then ⟨c.name, .num (labelEncode (cs.map strCell))⟩
      else c
    | _ => c)⟩

/-- `_engineer_features`: each engineered column is added only when its
source columns are present; `df[name] = ...` overwrites in place when
the column already exists. -/
def engineerFeatures (f : Frame) : Except String Frame := do
  let f1 ←
    match f.getCol? "overNumber" with
    | some c => do
      let cs ← numCellsE c.data
      let pp := ColData.num (cs.map (fun x => some (if optLe x 6 then 1 else 0)))
      let dd := ColData.num (cs.map (fun x => some (if optGe x 16 then 1 else 0)))
      let mm := ColData.num (cs.map (fun x => some (if optBetween 7 x 15 then 1 else 0)))
      pure (((f.setCol "is_powerplay" pp).setCol "is_death_overs" dd).setCol
        "is_middle_overs" mm)
    | none => pure f
  let f2 ←
    match f1.getCol? "runRate", f1.getCol? "requiredRunRate" with
    | some cr, some crr => do
      let rs ← numCellsE cr.data
      let rrs ← numCellsE crr.data
      let diff := ColData.num (optZipSub rs rrs)
      let ratio := ColData.num (optZipDiv rs (rrs.map (fun c => c.map (fun x => x + 1 / 10))))
      pure ((f1.setCol "run_rate_diff" diff).setCol "run_rate_ratio" ratio)
    | _, _ => pure f1
  let f3 ←
    match f2.getCol? "momentum.partnershipRuns", f2.getCol? "momentum.partnershipBalls" with
    | some cr, some cb => do
      let rs ← numCellsE cr.data
      let bs ← numCellsE cb.data
      let rate := ColData.num (optZipDiv rs (bs.map (fun c => c.map (fun x => x + 1))))
      pure (f2.setCol "partnership_rate" rate)
    | _, _ => pure f2
  match f3.getCol? "momentum.wicketsInHand" with
  | some cw => do
    let ws ← numCellsE cw.data
    pure (f3.setCol "wickets_remaining_ratio" (ColData.num (ws.map (fun c => c.map (fun x => x / 10)))))
  | none => pure f3

/-- `preprocess_features`: copy, flatten, handle missing values, cap
outliers, encode categoricals, engineer features — in that order. -/
def preprocessFeatures (df : Frame) : Except String Frame := do
  let f1 := flattenNestedFeatures df
  let f2 ← handleMissingValues f1
  let f3 := handleOutliers f2
  let f4 := encodeCategoricalFeatures f3
  engineerFeatures f4

/-! ## Target Constructor (`create_targets`) -/

/-- The constructed target cells for a classification target: the
source compares the whole source column against the threshold and
casts to int, so `target = 1` exactly when the cell is present and
`>= threshold` (a `NaN` comparison is false, giving `0`). -/
def classifyCells (cs : List (Option ℚ)) (threshold : ℚ) : ColData :=
  .num (cs.map (fun c => some (if optGe c threshold then 1 else 0)))

/-- `create_targets`: raise `ValueError` for an unregistered target
name; otherwise work on `df.copy()` — for a classification spec add a
binarised `target` column (threshold defaulting to 1 via
`target_config.get('threshold', 1)`), for a regression spec copy the
source column into `target` unchanged. A missing source column is the
source's `KeyError`. -/
def createTargets (df : Frame) (targetName : String) : Except String Frame :=
  match targetFeatures.lookup targetName with
  | none => .error ("Unknown target: " ++ targetName)
  | some cfg =>
    match df.getCol? cfg.target_column with
    | none => .error ("KeyError: " ++ cfg.target_column)
    | some c =>
      match cfg.type with
      | .classification => do
        let cs ← numCellsE c.data
        .ok (df.setCol "target" (classifyCells cs (cfg.threshold.getD 1)))
      | .regression => .ok (df.setCol "target" c.data)

/-! ## A store of frames

`create_targets` operates on mutable pandas objects: `df.copy()`
allocates a fresh frame and the subsequent `target_df['target'] = ...`
assignment mutates that fresh frame in place. To make the "caller's
frame is untouched" claim meaningful, the heap of live frames is an
explicit list and the operation returns the index of the frame it
wrote. -/

/-- `create_targets` as a heap operation: read the frame at `i`, copy
it into a fresh slot, mutate only the fresh slot, return its index.
Exceptions (unknown target, missing source column) propagate before
any caller-visible mutation. -/
def createTargetsInStore (store : List Frame) (i : ℕ) (targetName : String) :
    Except String (List Frame × ℕ) :=
  match store.get? i with
  | none => .error "IndexError"
  | some df =>
    match createTargets df targetName with
    | .error e => .error e
    | .ok f => .ok ((store ++ [df]).set store.length f, store.length)

/-! ## Dataset Splitter (`prepare_train_test_data`)

The shuffling performed by `train_test_split(random_state=42)` (plain
or stratified) amounts to a permutation of the row indices; the
permutation is a parameter of the embedding. The fitted
`StandardScaler` state is likewise a parameter, constrained by
`scalerFits` where a claim needs its values, because the fitted scale
is the (generally irrational) square root of the column variance. -/

/-- A purely numeric feature matrix, column-oriented: the result of the
fill/coerce step of `prepare_train_test_data`. -/
structure NumFrame where
  names : List String
  cols : List (List ℚ)
  deriving DecidableEq, Repr

/-- Parse a plain decimal literal (optional sign, digits, optional
fractional part) the way `pd.to_numeric` accepts it; anything else is
the coercion failure `NaN`. (Exponent forms are not modelled; no
claim feeds them in.) -/
def parseRat (s : String) : Option ℚ :=
  let (neg, t) := if s.startsWith "-" then (true, s.drop 1) else (false, s)
  let digitsVal : String → Option ℕ := fun u =>
    if u.length > 0 && u.all Char.isDigit then
      some (u.foldl (fun acc c => acc * 10 + (c.toNat - 48)) 0)
    else none
  let mag : Option ℚ :=
    match t.split (fun c => c = '.') with
    | [a] => (digitsVal a).map (fun n => (n : ℚ))
    | [a, b] =>
      match digitsVal a, digitsVal b with
      | some x, some y => some ((x : ℚ) + (y : ℚ) / ((10 : ℚ) ^ b.length))
      | _, _ => none
    | _ => none
  mag.map (fun m => if neg then -m else m)

/-- One cell of an object column through `fillna(0)`,
`replace('Unknown', 0)` and `to_numeric(errors='coerce').fillna(0)`. -/
def objCellToNum (c : Option String) : ℚ :=
  match c with
  | none => 0
  | some s => if s = "Unknown" then 0 else (parseRat s).getD 0

/-- The fill/coerce step of `prepare_train_test_data` on one feature
column: numeric `NaN`s become 0 (`X.fillna(0)`); booleans coerce to
0/1; object cells go through the `'Unknown'`/`to_numeric` fallback;
dict payloads fail numeric coercion and also land on 0. (Datetime
columns are excluded by name before this step ever sees them; the
branch is kept total.) -/
def coerceCol : ColData → List ℚ
  | .num cs => cs.map (fun c => c.getD 0)
  | .obj cs => cs.map objCellToNum
  | .boolean cs => cs.map (fun b => if b then 1 else 0)
  | .datetime cs => cs.map (fun _ => 0)
  | .nested cs => cs.map (fun _ => 0)

/-- Length structure of the target vector `y = df_with_target['target']`
(`Option ℚ` cells; non-numeric payloads — unreachable for the
registered targets — are carried as missing, only their count
matters downstream). -/
def yCellList : ColData → List (Option ℚ)
  | .num cs => cs
  | .boolean cs => cs.map (fun b => some (if b then 1 else 0))
  | .obj cs => cs.map (fun _ => none)
  | .datetime cs => cs
  | .nested cs => cs.map (fun _ => none)

/-- `sklearn._validate_shuffle_split`: a float `test_size` carves off
`ceil(test_size * n)` rows. -/
def ceilFrac (n : ℕ) (t : ℚ) : ℕ := (Int.ceil ((n : ℚ) * t)).toNat

/-- Row selection by an index list (the shuffle permutation). -/
def applyPerm (perm : List ℕ) (l : List α) : List α :=
  perm.filterMap (fun i => l.get? i)

/-- `train_test_split(X, y, test_size=...)` given the shuffle
permutation: the first `nTest` permuted rows are the test set, the
remainder the train set; `X` and `y` are split by the same indices.
Returns `(X_keep, X_test, y_keep, y_test)`. -/
def trainTestSplitNF (X : NumFrame) (y : List (Option ℚ)) (perm : List ℕ) (nTest : ℕ) :
    NumFrame × NumFrame × List (Option ℚ) × List (Option ℚ) :=
  ( ⟨X.names, X.cols.map (fun c => (applyPerm perm c).drop nTest)⟩,
    ⟨X.names, X.cols.map (fun c => (applyPerm perm c).take nTest)⟩,
    (applyPerm perm y).drop nTest,
    (applyPerm perm y).take nTest )

/-- `StandardScaler.transform` with fitted per-column `(mean, scale)`
parameters: `x ↦ (x - mean) / scale` columnwise. sklearn raises when
the column count differs from the fitted feature count. -/
def scaleFrame (ps : List (ℚ × ℚ)) (X : NumFrame) : Except String NumFrame :=
  if ps.length = X.cols.length then
    .ok ⟨X.names, List.zipWith (fun p c => c.map (fun x => (x - p.1) / p.2)) ps X.cols⟩
  else .error "shape mismatch"

/-- `StandardScaler.fit` on a frame, relationally: per column the mean
is the population mean and the scale is the square root of the
population variance (`ddof = 0`), with a zero variance mapped to scale
1 (sklearn `_handle_zeros_in_scale`). The square root is expressed by
`scale ^ 2 = var` since it is irrational in general. -/
def scalerFits (ps : List (ℚ × ℚ)) (X : NumFrame) : Prop :=
  List.Forall₂
    (fun p c =>
      p.1 = meanPop c ∧
        (if varPop c = 0 then p.2 = 1 else 0 ≤ p.2 ∧ p.2 ^ 2 = varPop c))
    ps X.cols

/-- The non-feature columns excluded from the feature matrix, plus all
datetime-typed columns. -/
def excludedColumns (dft : Frame) : List String :=
  ["target", "_id", "matchId", "fixtureId", "timestamp", "createdAt", "updatedAt",
    "engineeredAt", "overStartTime", "overEndTime"] ++
    (dft.cols.filter (fun c => match c.data with | .datetime _ => true | _ => false)).map
      Col.name

/-- Lines 359–396 of `data_loader.py`: build the target, select the
feature columns, fill/coerce them to numbers, and perform the
two-stage split — test fraction first, then the validation fraction
re-expressed as `v / (1 - t)` on the remainder. Returns
`(X_train, X_val, X_test, y_train, y_val, y_test)` before scaling. -/
def splitFeatures (df : Frame) (targetName : String) (tSize vSize : ℚ)
    (perm1 perm2 : List ℕ) :
    Except String (NumFrame × NumFrame × NumFrame ×
      List (Option ℚ) × List (Option ℚ) × List (Option ℚ)) := do
  let dft ← createTargets df targetName
  let featCols := dft.cols.filter (fun c => ¬ (excludedColumns dft).contains c.name)
  let X : NumFrame := ⟨featCols.map Col.name, featCols.map (fun c => coerceCol c.data)⟩
  let y : List (Option ℚ) :=
    match dft.getCol? "target" with
    | some c => yCellList c.data
    | none => []
  let nTest := ceilFrac y.length tSize
  let (Xtemp, Xtest, ytemp, ytest) := trainTestSplitNF X y perm1 nTest
  let vAdj := vSize / (1 - tSize)
  let nVal := ceilFrac ytemp.length vAdj
  let (Xtrain, Xval, ytrain, yval) := trainTestSplitNF Xtemp ytemp perm2 nVal
  .ok (Xtrain, Xval, Xtest, ytrain, yval, ytest)

/-- `prepare_train_test_data`: split, then scale all three feature
matrices with the single scaler state `ps` — the state the source
obtains by `self.scaler.fit_transform(X_train)` and then applies
unchanged via `self.scaler.transform` to the validation and test
partitions. -/
def prepareTrainTestData (df : Frame) (targetName : String) (tSize vSize : ℚ)
    (perm1 perm2 : List ℕ) (ps : List (ℚ × ℚ)) :
    Except String (NumFrame × NumFrame × NumFrame ×
      List (Option ℚ) × List (Option ℚ) × List (Option ℚ)) := do
  let (Xtrain, Xval, Xtest, ytrain, yval, ytest) ←
    splitFeatures df targetName tSize vSize perm1 perm2
  let XtrainS ← scaleFrame ps Xtrain
  let XvalS ← scaleFrame ps Xval
  let XtestS ← scaleFrame ps Xtest
  .ok (XtrainS, XvalS, XtestS, ytrain, yval, ytest)

/-! ## Model Trainer (`model_trainer.CricketModelTrainer`) -/

/-- `_get_scoring_metric`: the scoring string handed to
`GridSearchCV`. -/
def getScoringMetric (taskType : String) : String :=
  if taskType = "classification" then "f1" else "neg_mean_squared_error"

/-- Averaging mode of sklearn's named F1 scorers, from the sklearn
scorer registry (external library, not part of this repository): the
plain `"f1"` scorer is `f1_score` with its default `average='binary'`;
the weighted variant is registered separately as `"f1_weighted"`. -/
def f1ScorerAverage (s : String) : Option String :=
  if s = "f1" then some "binary"
  else if s = "f1_weighted" then some "weighted"
  else if s = "f1_macro" then some "macro"
  else if s = "f1_micro" then some "micro"
  else none

/-- `Config.MODEL_CONFIGS`: the declared hyperparameter grids
(parameter values carried as their literal spellings). -/
def modelConfigs : List (String × List (String × List String)) :=
  [ ("logistic_regression",
      [ ("C", ["0.1", "1", "10", "100"]),
        ("penalty", ["l1", "l2"]),
        ("solver", ["liblinear", "saga"]) ]),
    ("random_forest",
      [ ("n_estimators", ["50", "100", "200"]),
        ("max_depth", ["10", "20", "None"]),
        ("min_samples_split", ["2", "5", "10"]),
        ("min_samples_leaf", ["1", "2", "4"]) ]),
    ("gradient_boosting",
      [ ("n_estimators", ["50", "100", "200"]),
        ("learning_rate", ["0.01", "0.1", "0.2"]),
        ("max_depth", ["3", "5", "7"]),
        ("subsample", ["0.8", "0.9", "1.0"]) ]),
    ("xgboost",
      [ ("n_estimators", ["50", "100", "200"]),
        ("learning_rate", ["0.01", "0.1", "0.2"]),
        ("max_depth", ["3", "5", "7"]),
        ("subsample", ["0.8", "0.9", "1.0"]) ]) ]

/-- The candidate configurations of a grid: the cartesian product of
the per-parameter value lists (`sklearn.ParameterGrid`). -/
def gridCandidates : List (String × List String) → List (List (String × String))
  | [] => [[]]
  | (k, vs) :: rest =>
    vs.flatMap (fun v => (gridCandidates rest).map (fun c => (k, v) :: c))

/-- The cross-validated grid search `_train_single_model` constructs
when a grid is declared: its candidates, fold count and scoring
string. -/
structure GridSearch where
  candidates : List (List (String × String))
  cv : ℕ
  scoring : String
  deriving DecidableEq, Repr

/-- `_train_single_model`, tuning phase: `MODEL_CONFIGS.get(name, {})`
is consulted; a non-empty grid yields a `GridSearchCV` with
`cv = Config.CV_FOLDS` and `scoring = _get_scoring_metric(task)`;
otherwise the model trains with defaults (no grid search). -/
def trainSingleModelPlan (modelName taskType : String) : Option GridSearch :=
  match modelConfigs.lookup modelName with
  | some g =>
    if g.isEmpty then none
    else some ⟨gridCandidates g, cvFolds, getScoringMetric taskType⟩
  | none => none

/-- One step of first-maximum selection: take the element when there
is no incumbent, replace the incumbent only on a strictly greater
score (ties keep the incumbent). -/
def argmaxStep (score : α → ℚ) (acc : Option α) (x : α) : Option α :=
  match acc with
  | none => some x
  | some b => if score x > score b then some x else some b

/-- First-maximum selection: fold that keeps the incumbent on ties, so
the first element attaining the maximal score wins. `GridSearchCV`
picks `best_index_ = rank_test_score.argmin()`, and `numpy.argmin`
returns the first minimal rank; the report loop in
`generate_model_report` updates only on a strictly greater score. -/
def firstArgmax (score : α → ℚ) (l : List α) : Option α :=
  l.foldl (argmaxStep score) none

/-- The configuration `GridSearchCV` refits: the candidate with the
best mean cross-validation score (first maximum on ties), given an
abstract scoring function (the estimator library is opaque). -/
def gridSearchBest (gs : GridSearch) (cvScore : List (String × String) → ℚ) :
    Option (List (String × String)) :=
  firstArgmax cvScore gs.candidates

/-- `self.models` of `CricketModelTrainer`: initialised to `{}` in
`__init__` and never written anywhere in `model_trainer.py`. -/
def trainerModels : List (String × Unit) := []

/-- A metric value: exact rational, or the square root of a rational
(`rmse = np.sqrt(mse)` is irrational in general). -/
inductive MVal where
  | rat (q : ℚ)
  | sqrtOf (q : ℚ)
  deriving DecidableEq, Repr

/-- Distinct values of a label vector (`np.unique` without the
sorting, which only the count of classes ever uses here). -/
def uniqueVals (l : List ℚ) : List ℚ :=
  l.foldl (fun acc x => if acc.contains x then acc else acc ++ [x]) []

/-- Count of positions where both vectors carry the given pair of
labels. -/
def pairCount (yTrue yPred : List ℚ) (t p : ℚ) : ℕ :=
  ((yTrue.zip yPred).filter (fun ab => ab.1 = t ∧ ab.2 = p)).length

/-- Per-class precision `TP / (TP + FP)`, with sklearn's
`zero_division=0` default. -/
def precisionOf (yTrue yPred : List ℚ) (c : ℚ) : ℚ :=
  let tp := pairCount yTrue yPred c c
  let predicted := (yPred.filter (fun p => p = c)).length
  if predicted = 0 then 0 else (tp : ℚ) / (predicted : ℚ)

/-- Per-class recall `TP / (TP + FN)` (`zero_division=0`). -/
def recallOf (yTrue yPred : List ℚ) (c : ℚ) : ℚ :=
  let tp := pairCount yTrue yPred c c
  let support := (yTrue.filter (fun t => t = c)).length
  if support = 0 then 0 else (tp : ℚ) / (support : ℚ)

/-- Per-class F1, 0 when precision and recall are both 0. -/
def f1Of (yTrue yPred : List ℚ) (c : ℚ) : ℚ :=
  let p := precisionOf yTrue yPred c
  let r := recallOf yTrue yPred c
  if p + r = 0 then 0 else 2 * p * r / (p + r)

/-- Support-weighted average over the classes present in `y_true`
(classes absent from `y_true` have zero support and contribute
nothing, matching `average='weighted'`). -/
def weightedAvg (yTrue : List ℚ) (perClass : ℚ → ℚ) : ℚ :=
  ((uniqueVals yTrue).map
    (fun c => ((yTrue.filter (fun t => t = c)).length : ℚ) * perClass c)).sum /
    (yTrue.length : ℚ)

/-- `_calculate_metrics`. Classification: accuracy and weighted
precision/recall/F1; then, for a binary `y_true`, the source reads
`y_prob = self.models.get('model', None)` — `self.models` is the
trainer's never-populated `{}`, so `y_prob` is always `None` and
`roc_auc` is never inserted (and had the lookup produced anything it
would be a model object, whose `roc_auc_score` call raises into the
bare `except: pass`). Regression: MSE, RMSE (`sqrt` of MSE), MAE and
the sklearn `r2_score` (degenerate constant-target cases per its
documentation). -/
def calculateMetrics (yTrue yPred : List ℚ) (taskType : String) : List (String × MVal) :=
  if taskType = "classification" then
    let n := yTrue.length
    let acc : ℚ := (((yTrue.zip yPred).filter (fun ab => ab.1 = ab.2)).length : ℚ) / (n : ℚ)
    let base :=
      [ ("accuracy", MVal.rat acc),
        ("precision", MVal.rat (weightedAvg yTrue (precisionOf yTrue yPred))),
        ("recall", MVal.rat (weightedAvg yTrue (recallOf yTrue yPred))),
        ("f1", MVal.rat (weightedAvg yTrue (f1Of yTrue yPred))) ]
    if (uniqueVals yTrue).length = 2 then
      match trainerModels.lookup "model" with
      | some _ => base
      | none => base
    else base
  else
    let n := yTrue.length
    let diffs := (yTrue.zip yPred).map (fun ab => ab.1 - ab.2)
    let mse : ℚ := (diffs.map (fun d => d ^ 2)).sum / (n : ℚ)
    let mae : ℚ := (diffs.map (fun d => |d|)).sum / (n : ℚ)
    let ssRes : ℚ := (diffs.map (fun d => d ^ 2)).sum
    let ssTot : ℚ := (yTrue.map (fun t => (t - meanPop yTrue) ^ 2)).sum
    let r2 : ℚ :=
      if ssTot = 0 then (if ssRes = 0 then 1 else 0) else 1 - ssRes / ssTot
    [ ("mse", MVal.rat mse), ("rmse", MVal.sqrtOf mse),
      ("mae", MVal.rat mae), ("r2", MVal.rat r2) ]

/-! ## Model Selector / Reporter (`generate_model_report`) -/

/-- Per-family outcome stored in `self.results[target]`: an error
record, or a results dict of which the report consumes the validation
metrics (`f1`/`r2` values are plain floats). -/
inductive FamilyResult where
  | err (msg : String)
  | res (valMetrics : List (String × ℚ))
  deriving DecidableEq, Repr

/-- The selection score of one family:
`val_metrics.get('f1', 0)` for classification,
`val_metrics.get('r2', 0)` for regression. -/
def valScore (taskType : String) (m : List (String × ℚ)) : ℚ :=
  if taskType = "classification" then (m.lookup "f1").getD 0
  else (m.lookup "r2").getD 0

/-- The best-model loop of `generate_model_report`:
`best_score = -inf`; families with an error entry are skipped
(`continue`); a family becomes best only on a strictly greater
validation score, so the first family attaining the maximum wins. -/
def bestModelFold (taskType : String) (results : List (String × FamilyResult)) :
    Option String :=
  (results.foldl
    (fun acc nr =>
      match nr.2 with
      | .err _ => acc
      | .res m => argmaxStep (fun p => p.2) acc (nr.1, valScore taskType m))
    none).map Prod.fst

/-- The families eligible for selection, paired with their selection
scores, in iteration order. -/
def okEntries (taskType : String) (results : List (String × FamilyResult)) :
    List (String × ℚ) :=
  results.filterMap (fun nr =>
    match nr.2 with
    | .err _ => none
    | .res m => some (nr.1, valScore taskType m))

/-! ## Inference Feature Builder (`model_deployer._prepare_features`) -/

/-- A default value in the hardcoded complete-feature mapping. -/
inductive DefVal where
  | num (q : ℚ)
  | boolean (b : Bool)
  deriving DecidableEq, Repr

/-- The hardcoded `complete_features` default mapping of
`_prepare_features`, in source order. -/
def defaultCompleteFeatures : List (String × DefVal) :=
  [ ("innings", .num 1),
    ("overNumber", .num 5),
    ("overBalls", .num 6),
    ("overBoundaries", .num 0),
    ("overExtras", .num 0),
    ("overRuns", .num 0),
    ("overSixes", .num 0),
    ("overWickets", .num 0),
    ("requiredRunRate", .num 0),
    ("runRate", .num 0),
    ("teamBatting", .num 5),
    ("teamBowling", .num 5),
    ("totalOvers", .num (1 / 10)),
    ("totalRuns", .num 0),
    ("totalWickets", .num 0),
    ("batsmanStats.striker.runs", .num 0),
    ("batsmanStats.striker.balls", .num 0),
    ("batsmanStats.striker.strikeRate", .num 0),
    ("batsmanStats.nonStriker.runs", .num 0),
    ("batsmanStats.nonStriker.balls", .num 0),
    ("bowlerStats.runs", .num 0),
    ("bowlerStats.wickets", .num 0),
    ("bowlerStats.balls", .num 0),
    ("bowlerStats.dotBalls", .num 0),
    ("bowlerStats.economyRate", .num 0),
    ("momentum.recentRunRate", .num 0),
    ("momentum.wicketsInHand", .num 10),
    ("momentum.pressureIndex", .num 0),
    ("momentum.partnershipRuns", .num 0),
    ("momentum.partnershipBalls", .num 0),
    ("matchContext.target", .num 0),
    ("matchContext.chase", .boolean false),
    ("matchContext.powerplay", .boolean false),
    ("matchContext.deathOvers", .boolean false),
    ("dataQuality.complete", .boolean true),
    ("dataQuality.missingBalls", .num 0),
    ("is_powerplay", .num 0),
    ("is_death_overs", .num 0),
    ("is_middle_overs", .num 1),
    ("run_rate_diff", .num 0),
    ("run_rate_ratio", .num 0),
    ("partnership_rate", .num 0),
    ("wickets_remaining_ratio", .num 1) ]

/-- One default value as a single-row pandas column. -/
def DefVal.toColData : DefVal → ColData
  | .num q => .num [some q]
  | .boolean b => .boolean [b]

/-- `_prepare_features(features, target)`: merge the caller's partial
mapping over the default mapping (`features.get(key, default)` per
key), build the single-row frame in dict-key order, run it through the
identical `preprocess_features`, apply the identical non-feature
exclusion and object/bool coercion as `prepare_train_test_data`, and
return row 0 — or `None` if any step raises. -/
def prepareFeaturesSvc (features : List (String × DefVal)) : Option (List ℚ) :=
  let merged := defaultCompleteFeatures.map
    (fun kv => (kv.1, (features.lookup kv.1).getD kv.2))
  let df : Frame := ⟨merged.map (fun kv => ⟨kv.1, kv.2.toColData⟩)⟩
  match preprocessFeatures df with
  | .error _ => none
  | .ok pf =>
    let featCols := pf.cols.filter (fun c => ¬ (excludedColumns pf).contains c.name)
    some (featCols.map (fun c => (coerceCol c.data).getD 0 0))

/-! ## Supporting lemmas -/

theorem sum_const_list {p : List ℚ} {x : ℚ} (h : ∀ y ∈ p, y = x) :
    p.sum = (p.length : ℚ) * x := by
  induction p with
  | nil => simp
  | cons a t ih =>
    have ha : a = x := h a (by simp)
    have ht : ∀ y ∈ t, y = x := fun y hy => h y (by simp [hy])
    simp [ha, ih ht]
    ring

theorem meanPop_const {p : List ℚ} {x : ℚ} (hne : p ≠ []) (h : ∀ y ∈ p, y = x) :
    meanPop p = x := by
  have hlen : (p.length : ℚ) ≠ 0 := by
    have : p.length ≠ 0 := fun h => hne (List.length_eq_zero.mp h)
    exact_mod_cast this
  rw [meanPop, sum_const_list h, mul_comm, mul_div_assoc, div_self hlen, mul_one]

theorem presentVals_mem {cells : List (Option ℚ)} {x : ℚ}
    (h : some x ∈ cells) : x ∈ presentVals cells := by
  unfold presentVals
  exact List.mem_filterMap.mpr ⟨some x, h, rfl⟩

theorem outlierMask_const {cells : List (Option ℚ)}
    (hconst : ∀ x ∈ presentVals cells, ∀ y ∈ presentVals cells, x = y) :
    ∀ cell ∈ cells, outlierMask (skMean cells) (skVar cells) cell = false := by
  intro cell hcell
  unfold outlierMask
  cases cell with
  | none => rfl
  | some x =>
    unfold skMean skVar
    by_cases hlen : (presentVals cells).length ≤ 1
    · simp [hlen]
    · have hlen2 : ¬ (presentVals cells).length = 0 := by omega
      simp only [hlen, if_neg, if_false, hlen2]
      have hxmem : x ∈ presentVals cells := presentVals_mem hcell
      have hne : presentVals cells ≠ [] := by
        intro h; rw [h] at hxmem; simp at hxmem
      have hmean : meanPop (presentVals cells) = x :=
        meanPop_const hne (fun y hy => hconst y hy x hxmem)
      have hvar :
          ((presentVals cells).map (fun z => (z - meanPop (presentVals cells)) ^ 2)).sum = 0 := by
        rw [sum_const_list (x := 0)]
        · simp
        · intro y hy
          rcases List.mem_map.mp hy with ⟨z, hz, hzy⟩
          have : z = x := hconst z hz x hxmem
          simp [← hzy, this, hmean]
      rw [hmean] at hvar
      simp [hvar, hmean]

theorem outlierCol_const {name : String} {cells : List (Option ℚ)}
    (hconst : ∀ x ∈ presentVals cells, ∀ y ∈ presentVals cells, x = y) :
    outlierCol ⟨name, .num cells⟩ = ⟨name, .num cells⟩ := by
  unfold outlierCol
  simp only
  by_cases hmem : name ∈ numericalFeatures
  · have hany : cells.any (outlierMask (skMean cells) (skVar cells)) = false := by
      rw [List.any_eq_false]
      intro cell hcell
      simp [outlierMask_const hconst cell hcell]
    simp [hmem, hany]
  · simp [hmem]

/-- Claim C9: for every declared numeric column with zero variance
(all present values equal, so the float z-score is `0 / 0 = NaN`), the
outlier-capping step neither fails — `handleOutliers` is a total
function whose mask treats the undefined z-score as "not an
outlier" — nor changes any value of that column. -/
theorem zero_variance_column_unchanged_by_outlier_capping
    (f : Frame) (i : ℕ) (name : String) (cells : List (Option ℚ))
    (hmem : name ∈ numericalFeatures)
    (hconst : ∀ x ∈ presentVals cells, ∀ y ∈ presentVals cells, x = y)
    (hcol : f.cols.get? i = some ⟨name, .num cells⟩) :
    (handleOutliers f).cols.get? i = some ⟨name, .num cells⟩ := by
  unfold handleOutliers
  simp only [List.get?_map, hcol, Option.map_some', outlierCol_const hconst]

/-- Witness for C9: a constant declared numeric column (`runRate`
being 7 in both rows, sample std 0) passes through `handleOutliers`
unchanged. -/
theorem zero_variance_column_unchanged_witness :
    "runRate" ∈ numericalFeatures ∧
      (handleOutliers ⟨[⟨"runRate", .num [some 7, some 7]⟩]⟩).cols.get? 0 =
        some ⟨"runRate", .num [some 7, some 7]⟩ :=
  ⟨by decide,
    zero_variance_column_unchanged_by_outlier_capping
      ⟨[⟨"runRate", .num [some 7, some 7]⟩]⟩ 0 "runRate" [some 7, some 7]
      (by decide) (by decide) rfl⟩

/-- Claim C8, counterexample: a zero-row input with a declared
(numeric) column does *not* come back as an empty frame — the median
imputer refuses to fit on zero samples, so `preprocess_features`
raises instead of returning. -/
theorem preprocess_zero_rows_with_columns_raises :
    ∃ e, preprocessFeatures ⟨[⟨"overRuns", ColData.num []⟩]⟩ = .error e :=
  ⟨"Found array with 0 sample(s) while a minimum of 1 is required by SimpleImputer", rfl⟩

/-- Claim C8, amended: the frame an empty result set actually produces
(the loader returns a fully empty frame — zero rows *and* zero
columns — logging the warning) passes through `preprocess_features`
unchanged and without raising; only a zero-row frame that still
declares numeric columns raises in imputation. -/
theorem preprocess_empty_frame_ok :
    preprocessFeatures ⟨[]⟩ = .ok ⟨[]⟩ := rfl

/-- Claim C1, counterexample: the canonical schema is *not* fully
covered by the hardcoded default mapping — the declared numerical
feature `batsmanStats.nonStriker.strikeRate` has no default (nor do
the categorical features `venue`, `format`, `series`). -/
theorem default_mapping_misses_a_declared_feature :
    "batsmanStats.nonStriker.strikeRate" ∈ numericalFeatures ∧
      "batsmanStats.nonStriker.strikeRate" ∉ defaultCompleteFeatures.map Prod.fst := by
  decide

/-- Claim C1, amended: building a feature vector from an empty partial
mapping never raises (every preprocessing step succeeds on the fully
defaulted single-row frame, and no undefined column is referenced),
`momentum.wicketsInHand` defaults to 10 and `overBalls` to 6; the
defaults cover every declared numerical and categorical feature
*except* `batsmanStats.nonStriker.strikeRate`, `venue`, `format` and
`series`. -/
theorem default_fill_near_completeness :
    (prepareFeaturesSvc []).isSome = true ∧
      defaultCompleteFeatures.lookup "momentum.wicketsInHand" = some (.num 10) ∧
      defaultCompleteFeatures.lookup "overBalls" = some (.num 6) ∧
      ((numericalFeatures ++ categoricalFeatures).all (fun feat =>
        (defaultCompleteFeatures.map Prod.fst).contains feat ||
          ["batsmanStats.nonStriker.strikeRate", "venue", "format",
            "series"].contains feat)) = true := by
  exact ⟨by with_unfolding_all decide, rfl, rfl, by decide⟩

/-! ## Frame update lemmas -/

theorem find?_map_overwrite (nm : String) (d : ColData) :
    ∀ l : List Col, l.any (fun c => c.name = nm) = true →
      (l.map (fun c => if c.name = nm then ⟨nm, d⟩ else c)).find?
        (fun c => c.name = nm) = some ⟨nm, d⟩ := by
  intro l h
  induction l with
  | nil => simp at h
  | cons c t ih =>
    by_cases hc : c.name = nm
    · simp [hc, List.find?]
    · simp only [List.any_cons, Bool.or_eq_true, decide_eq_true_eq] at h
      rcases h with h | h
      · exact absurd h hc
      · simp only [List.map_cons, List.find?, hc, decide_eq_true_eq, if_neg]
        simpa [hc] using ih (by simpa using h)

theorem find?_append_missing (nm : String) (d : ColData) :
    ∀ l : List Col, l.any (fun c => c.name = nm) = false →
      (l ++ [Col.mk nm d]).find? (fun c => c.name = nm) = some ⟨nm, d⟩ := by
  intro l h
  induction l with
  | nil => simp [List.find?]
  | cons c t ih =>
    simp only [List.any_cons, Bool.or_eq_false_iff, decide_eq_false_iff_not] at h
    have hc : ¬ c.name = nm := h.1
    simp only [List.cons_append, List.find?, hc, decide_eq_true_eq, if_neg]
    simpa [hc] using ih (by simpa using h.2)

theorem getCol?_setCol_self (f : Frame) (nm : String) (d : ColData) :
    (f.setCol nm d).getCol? nm = some ⟨nm, d⟩ := by
  unfold Frame.setCol Frame.getCol?
  by_cases h : f.cols.any (fun c => c.name = nm) = true
  · simp only [h, if_true]
    exact find?_map_overwrite nm d f.cols h
  · have h2 : f.cols.any (fun c => c.name = nm) = false := Bool.eq_false_iff.mpr h
    simp only [h2, Bool.false_eq_true, if_false]
    exact find?_append_missing nm d f.cols h2

theorem setCol_preserves (f : Frame) (nm : String) (d : ColData)
    (hWF : f.WF) (hd : d.len = f.nrows) :
    (f.setCol nm d).WF ∧ (f.setCol nm d).nrows = f.nrows := by
  obtain ⟨l⟩ := f
  unfold Frame.setCol
  by_cases h : List.any l (fun c => c.name = nm) = true
  · simp only [h, if_true]
    cases l with
    | nil => simp at h
    | cons c0 t =>
      have hn : Frame.nrows ⟨(c0 :: t).map (fun c => if c.name = nm then ⟨nm, d⟩ else c)⟩ =
          Frame.nrows ⟨c0 :: t⟩ := by
        by_cases h0 : c0.name = nm
        · show (if c0.name = nm then Col.mk nm d else c0).data.len = c0.data.len
          rw [if_pos h0, hd]
          exact (hWF c0 (List.mem_cons_self c0 t)).symm
        · show (if c0.name = nm then Col.mk nm d else c0).data.len = c0.data.len
          rw [if_neg h0]
      refine ⟨?_, hn⟩
      intro c hcmem
      rw [hn]
      rcases List.mem_map.mp hcmem with ⟨c1, hc1, hc1eq⟩
      by_cases h1 : c1.name = nm
      · rw [if_pos h1] at hc1eq
        rw [← hc1eq]
        exact hd
      · rw [if_neg h1] at hc1eq
        rw [← hc1eq]
        exact hWF c1 hc1
  · have h2 : List.any l (fun c => c.name = nm) = false := Bool.eq_false_iff.mpr h
    simp only [h2, Bool.false_eq_true, if_false]
    cases l with
    | nil =>
      refine ⟨?_, ?_⟩
      · intro c hcmem
        simp only [List.nil_append, List.mem_singleton] at hcmem
        subst hcmem
        rfl
      · show d.len = Frame.nrows ⟨[]⟩
        exact hd
    | cons c0 t =>
      have hn : Frame.nrows ⟨(c0 :: t) ++ [Col.mk nm d]⟩ = Frame.nrows ⟨c0 :: t⟩ := rfl
      refine ⟨?_, hn⟩
      intro c hcmem
      rw [hn]
      rcases List.mem_append.mp hcmem with h1 | h1
      · exact hWF c h1
      · simp only [List.mem_singleton] at h1
        rw [h1]
        exact hd

theorem getCol?_mem (f : Frame) (nm : String) (c : Col)
    (h : f.getCol? nm = some c) : c ∈ f.cols := by
  unfold Frame.getCol? at h
  exact List.mem_of_find?_eq_some h

theorem numCellsE_len (d : ColData) (cs : List (Option ℚ))
    (h : numCellsE d = .ok cs) : cs.length = d.len := by
  cases d <;> simp [numCellsE] at h <;> simp [← h, ColData.len]

theorem classifyCells_len (cs : List (Option ℚ)) (k : ℚ) :
    (classifyCells cs k).len = cs.length := by
  simp [classifyCells, ColData.len]

/-- Claim C4: for every registered classification target with
threshold `k`, the constructed `target` column is `1` exactly where
the source cell is present and `>= k` and `0` everywhere else; for a
registered regression target the `target` column is the source column
unchanged. -/
theorem target_construction_threshold
    (name : String) (spec : TargetSpec) (f f' : Frame) (col : Col)
    (cells : List (Option ℚ))
    (hmem : (name, spec) ∈ targetFeatures)
    (hcol : f.getCol? spec.target_column = some col)
    (hnum : col.data = .num cells)
    (hok : createTargets f name = .ok f') :
    (spec.type = .classification →
      f'.getCol? "target" =
        some ⟨"target", classifyCells cells (spec.threshold.getD 1)⟩ ∧
      ∀ i c, cells.get? i = some c →
        ((classifyCells cells (spec.threshold.getD 1)).num?.getD []).get? i =
            some (some (if optGe c (spec.threshold.getD 1) then 1 else 0)) ∧
        (((classifyCells cells (spec.threshold.getD 1)).num?.getD []).get? i =
            some (some 1) ↔ optGe c (spec.threshold.getD 1) = true)) ∧
    (spec.type = .regression →
      f'.getCol? "target" = some ⟨"target", col.data⟩) := by
  have hlookup : targetFeatures.lookup name = some spec := by
    fin_cases hmem <;> rfl
  rw [createTargets, hlookup] at hok
  simp only [hcol] at hok
  constructor
  · intro htype
    rw [htype, hnum] at hok
    simp only [numCellsE] at hok
    have hf : f' = f.setCol "target" (classifyCells cells (spec.threshold.getD 1)) := by
      cases hok; rfl
    refine ⟨by rw [hf]; exact getCol?_setCol_self f "target" _, ?_⟩
    intro i c hic
    have haux : ((classifyCells cells (spec.threshold.getD 1)).num?.getD []).get? i =
        (cells.get? i).map (fun c => some (if optGe c (spec.threshold.getD 1) then 1 else 0)) := by
      simp [classifyCells, ColData.num?, List.get?_map]
    rw [haux, hic]
    refine ⟨rfl, ?_⟩
    cases hb : optGe c (spec.threshold.getD 1) <;> simp [hb]
  · intro htype
    rw [htype] at hok
    have hf : f' = f.setCol "target" col.data := by cases hok; rfl
    rw [hf]
    exact getCol?_setCol_self f "target" _

/-- Witness for C4: the spec's end-to-end scenario — over wickets
`[0, 1, 0]` with target `wicket_occurrence` (threshold 1) yield the
target vector `[0, 1, 0]`; the regression clause is also exercised via
`runs_per_over` copying `overRuns` unchanged. -/
theorem target_construction_threshold_witness :
    (createTargets ⟨[⟨"overWickets", .num [some 0, some 1, some 0]⟩]⟩
        "wicket_occurrence" =
      .ok ⟨[⟨"overWickets", .num [some 0, some 1, some 0]⟩,
            ⟨"target", .num [some 0, some 1, some 0]⟩]⟩) ∧
    ((TargetSpec.mk .classification "overWickets" (some 1)).type = .classification →
      (Frame.mk [⟨"overWickets", .num [some 0, some 1, some 0]⟩,
        ⟨"target", .num [some 0, some 1, some 0]⟩]).getCol? "target" =
          some ⟨"target", classifyCells [some 0, some 1, some 0] 1⟩ ∧
      ∀ i c, ([some (0:ℚ), some 1, some 0]).get? i = some c →
        ((classifyCells [some 0, some 1, some 0] 1).num?.getD []).get? i =
            some (some (if optGe c 1 then 1 else 0)) ∧
        (((classifyCells [some 0, some 1, some 0] 1).num?.getD []).get? i =
            some (some 1) ↔ optGe c 1 = true)) := by
  refine ⟨rfl, ?_⟩
  have h := target_construction_threshold "wicket_occurrence"
    ⟨.classification, "overWickets", some 1⟩
    ⟨[⟨"overWickets", .num [some 0, some 1, some 0]⟩]⟩
    ⟨[⟨"overWickets", .num [some 0, some 1, some 0]⟩,
      ⟨"target", .num [some 0, some 1, some 0]⟩]⟩
    ⟨"overWickets", .num [some 0, some 1, some 0]⟩
    [some 0, some 1, some 0]
    (by decide) rfl rfl rfl
  exact h.1

/-- Claim C10: `create_targets` works on `df.copy()` — in the explicit
heap model it allocates a fresh slot, mutates only that slot, and
leaves the caller's frame (and every other live frame) untouched,
returning the fresh frame with the `target` column added. -/
theorem create_targets_leaves_input_unchanged
    (store : List Frame) (i : ℕ) (name : String) (st2 : List Frame) (j : ℕ)
    (hok : createTargetsInStore store i name = .ok (st2, j)) :
    ∃ df f', store.get? i = some df ∧ createTargets df name = .ok f' ∧
      st2 = store ++ [f'] ∧ j = store.length ∧
      st2.get? i = store.get? i ∧ st2.get? j = some f' := by
  unfold createTargetsInStore at hok
  cases hdf : store.get? i with
  | none => rw [hdf] at hok; exact absurd hok (by simp)
  | some df =>
    rw [hdf] at hok
    simp only [] at hok
    cases hct : createTargets df name with
    | error e =>
      simp only [hct] at hok
      cases hok
    | ok f' =>
      simp only [hct] at hok
      have hst : st2 = (store ++ [df]).set store.length f' ∧ j = store.length := by
        cases hok; exact ⟨rfl, rfl⟩
      have hset : (store ++ [df]).set store.length f' = store ++ [f'] := by
        clear hok hdf
        induction store with
        | nil => rfl
        | cons a t ih => simp [List.set, ih]
      have hi : i < store.length := by
        by_contra hcon
        rw [List.get?_eq_none.mpr (by omega)] at hdf
        exact absurd hdf (by simp)
      refine ⟨df, f', rfl, hct, by rw [hst.1, hset], hst.2, ?_, ?_⟩
      · rw [hst.1, hset, List.get?_append hi]
        exact hdf
      · rw [hst.1, hset, hst.2]
        exact List.get?_concat_length store f'

/-- Witness for C10: running the heap-level `create_targets` on a
one-frame store returns a fresh frame at index 1 and leaves the frame
at index 0 exactly as it was. -/
theorem create_targets_leaves_input_unchanged_witness :
    ∃ df f',
      [Frame.mk [⟨"overWickets", ColData.num [some 1]⟩]].get? 0 = some df ∧
      createTargets df "wicket_occurrence" = .ok f' ∧
      ([Frame.mk [⟨"overWickets", ColData.num [some 1]⟩],
        Frame.mk [⟨"overWickets", ColData.num [some 1]⟩,
          ⟨"target", ColData.num [some 1]⟩]] : List Frame) =
        [Frame.mk [⟨"overWickets", ColData.num [some 1]⟩]] ++ [f'] ∧
      (1 : ℕ) = [Frame.mk [⟨"overWickets", ColData.num [some 1]⟩]].length ∧
      ([Frame.mk [⟨"overWickets", ColData.num [some 1]⟩],
        Frame.mk [⟨"overWickets", ColData.num [some 1]⟩,
          ⟨"target", ColData.num [some 1]⟩]] : List Frame).get? 0 =
        [Frame.mk [⟨"overWickets", ColData.num [some 1]⟩]].get? 0 ∧
      ([Frame.mk [⟨"overWickets", ColData.num [some 1]⟩],
        Frame.mk [⟨"overWickets", ColData.num [some 1]⟩,
          ⟨"target", ColData.num [some 1]⟩]] : List Frame).get? 1 = some f' :=
  create_targets_leaves_input_unchanged
    [⟨[⟨"overWickets", .num [some 1]⟩]⟩] 0 "wicket_occurrence"
    [⟨[⟨"overWickets", .num [some 1]⟩]⟩,
      ⟨[⟨"overWickets", .num [some 1]⟩, ⟨"target", .num [some 1]⟩]⟩] 1 rfl

/-! ## First-maximum selection lemmas -/

theorem firstArgmax_cons_spec (score : α → ℚ) :
    ∀ (l : List α) (b : α),
      ∃ r, firstArgmax score (b :: l) = some r ∧
        ((r = b ∧ ∀ x ∈ l, score x ≤ score b) ∨
         (∃ l₁ l₂, l = l₁ ++ r :: l₂ ∧ score b < score r ∧
           (∀ x ∈ l₁, score x < score r) ∧ (∀ x ∈ l₂, score x ≤ score r))) := by
  intro l
  induction l with
  | nil =>
    intro b
    exact ⟨b, rfl, Or.inl ⟨rfl, by simp⟩⟩
  | cons a t ih =>
    intro b
    by_cases hab : score a > score b
    · have key : firstArgmax score (b :: a :: t) = firstArgmax score (a :: t) := by
        unfold firstArgmax
        simp only [List.foldl_cons]
        congr 1
        simp [argmaxStep, hab]
      obtain ⟨r, hr, hdisj⟩ := ih a
      refine ⟨r, by rw [key]; exact hr, Or.inr ?_⟩
      rcases hdisj with ⟨hra, hbound⟩ | ⟨l₁, l₂, hdec, hlt, h₁, h₂⟩
      · subst hra
        exact ⟨[], t, rfl, hab, by simp, hbound⟩
      · refine ⟨a :: l₁, l₂, by rw [hdec, List.cons_append], lt_trans hab hlt, ?_, h₂⟩
        intro x hx
        rcases List.mem_cons.mp hx with hx | hx
        · rw [hx]; exact hlt
        · exact h₁ x hx
    · have key : firstArgmax score (b :: a :: t) = firstArgmax score (b :: t) := by
        unfold firstArgmax
        simp only [List.foldl_cons]
        congr 1
        simp [argmaxStep, hab]
      have hab2 : score a ≤ score b := le_of_not_lt hab
      obtain ⟨r, hr, hdisj⟩ := ih b
      refine ⟨r, by rw [key]; exact hr, ?_⟩
      rcases hdisj with ⟨hrb, hbound⟩ | ⟨l₁, l₂, hdec, hlt, h₁, h₂⟩
      · refine Or.inl ⟨hrb, ?_⟩
        intro x hx
        rcases List.mem_cons.mp hx with hx | hx
        · rw [hx]; exact hab2
        · exact hbound x hx
      · refine Or.inr ⟨a :: l₁, l₂, by rw [hdec, List.cons_append], hlt, ?_, h₂⟩
        intro x hx
        rcases List.mem_cons.mp hx with hx | hx
        · rw [hx]; exact lt_of_le_of_lt hab2 hlt
        · exact h₁ x hx

theorem firstArgmax_spec (score : α → ℚ) (l : List α) (hne : l ≠ []) :
    ∃ r l₁ l₂, firstArgmax score l = some r ∧ l = l₁ ++ r :: l₂ ∧
      (∀ x ∈ l₁, score x < score r) ∧ (∀ x ∈ l₂, score x ≤ score r) := by
  cases l with
  | nil => exact absurd rfl hne
  | cons b t =>
    obtain ⟨r, hr, hdisj⟩ := firstArgmax_cons_spec score t b
    rcases hdisj with ⟨hrb, hbound⟩ | ⟨l₁, l₂, hdec, hlt, h₁, h₂⟩
    · subst hrb
      exact ⟨r, [], t, hr, rfl, by simp, hbound⟩
    · refine ⟨r, b :: l₁, l₂, hr, by rw [hdec, List.cons_append], ?_, h₂⟩
      intro x hx
      rcases List.mem_cons.mp hx with hx | hx
      · rw [hx]; exact hlt
      · exact h₁ x hx

theorem firstArgmax_mem_max (score : α → ℚ) (l : List α) (r : α)
    (h : firstArgmax score l = some r) :
    r ∈ l ∧ ∀ x ∈ l, score x ≤ score r := by
  have hne : l ≠ [] := by
    intro he
    rw [he] at h
    exact absurd h (by simp [firstArgmax])
  obtain ⟨r2, l₁, l₂, heq, hdec, h₁, h₂⟩ := firstArgmax_spec score l hne
  have hr : r2 = r := by
    rw [h] at heq
    exact (Option.some.injEq _ _ ▸ heq).symm
  subst hr
  constructor
  · rw [hdec]
    exact List.mem_append.mpr (Or.inr (List.mem_cons_self _ _))
  · intro x hx
    rw [hdec] at hx
    rcases List.mem_append.mp hx with hx | hx
    · exact le_of_lt (h₁ x hx)
    · rcases List.mem_cons.mp hx with hx | hx
      · rw [hx]
      · exact h₂ x hx

theorem bestModelFold_foldl_eq (taskType : String) :
    ∀ (res : List (String × FamilyResult)) (acc : Option (String × ℚ)),
      res.foldl (fun acc nr =>
        match nr.2 with
        | .err _ => acc
        | .res m => argmaxStep (fun p => p.2) acc (nr.1, valScore taskType m)) acc
      = (okEntries taskType res).foldl (argmaxStep (fun p => p.2)) acc := by
  intro res
  induction res with
  | nil => intro acc; rfl
  | cons nr t ih =>
    intro acc
    cases hnr : nr.2 with
    | err m =>
      simp only [List.foldl_cons, hnr, okEntries, List.filterMap_cons]
      exact ih acc
    | res m =>
      simp only [List.foldl_cons, hnr, okEntries, List.filterMap_cons]
      exact ih _

theorem bestModelFold_eq_firstArgmax (taskType : String)
    (results : List (String × FamilyResult)) :
    bestModelFold taskType results =
      (firstArgmax (fun p : String × ℚ => p.2) (okEntries taskType results)).map
        Prod.fst := by
  unfold bestModelFold firstArgmax
  rw [bestModelFold_foldl_eq taskType results none]

/-- Claim C5: among the families without an error entry, the report
loop selects the one whose selection score (`val_metrics['f1']` for
classification, `val_metrics['r2']` for regression, defaulting to 0)
is highest, and ties break deterministically by iteration order: every
eligible family strictly before the selected one scores strictly less,
every one after scores at most as much. -/
theorem best_model_selection_first_max (taskType : String)
    (results : List (String × FamilyResult))
    (hne : okEntries taskType results ≠ []) :
    ∃ name s l₁ l₂,
      bestModelFold taskType results = some name ∧
      okEntries taskType results = l₁ ++ (name, s) :: l₂ ∧
      (∀ p ∈ l₁, p.2 < s) ∧ (∀ p ∈ l₂, p.2 ≤ s) := by
  obtain ⟨r, l₁, l₂, heq, hdec, h₁, h₂⟩ :=
    firstArgmax_spec (fun p : String × ℚ => p.2) (okEntries taskType results) hne
  refine ⟨r.1, r.2, l₁, l₂, ?_, by rw [hdec], h₁, h₂⟩
  rw [bestModelFold_eq_firstArgmax, heq]
  rfl

/-- Witness for C5: the spec's example — validation F1 scores
`{logistic_regression: 0.62, random_forest: 0.78, xgboost: 0.75}` —
selects `random_forest`. -/
theorem best_model_selection_first_max_witness :
    (okEntries "classification"
        [("logistic_regression", .res [("f1", 62 / 100)]),
         ("random_forest", .res [("f1", 78 / 100)]),
         ("xgboost", .res [("f1", 75 / 100)])] ≠ []) ∧
    (∃ name s l₁ l₂,
      bestModelFold "classification"
          [("logistic_regression", .res [("f1", 62 / 100)]),
           ("random_forest", .res [("f1", 78 / 100)]),
           ("xgboost", .res [("f1", 75 / 100)])] = some name ∧
      okEntries "classification"
          [("logistic_regression", .res [("f1", 62 / 100)]),
           ("random_forest", .res [("f1", 78 / 100)]),
           ("xgboost", .res [("f1", 75 / 100)])] = l₁ ++ (name, s) :: l₂ ∧
      (∀ p ∈ l₁, p.2 < s) ∧ (∀ p ∈ l₂, p.2 ≤ s)) ∧
    bestModelFold "classification"
        [("logistic_regression", .res [("f1", 62 / 100)]),
         ("random_forest", .res [("f1", 78 / 100)]),
         ("xgboost", .res [("f1", 75 / 100)])] = some "random_forest" :=
  ⟨by decide,
    best_model_selection_first_max "classification"
      [("logistic_regression", .res [("f1", 62 / 100)]),
       ("random_forest", .res [("f1", 78 / 100)]),
       ("xgboost", .res [("f1", 75 / 100)])] (by decide),
    by with_unfolding_all decide⟩

/-- Claim C6, counterexample: the grid-search scoring string the
trainer hands to `GridSearchCV` for classification is `"f1"`, which in
sklearn's scorer registry is *binary*-averaged F1 — not the weighted
F1 the claim states (that scorer is the distinct string
`"f1_weighted"`). -/
theorem classification_grid_scoring_not_weighted :
    f1ScorerAverage (getScoringMetric "classification") ≠ some "weighted" := by
  decide

/-- Claim C6, amended: for every model family with a declared
hyperparameter grid (all four have one), the trainer performs k-fold
cross-validated grid search with `k = Config.CV_FOLDS = 5` on the
training partition, scored by sklearn's `"f1"` scorer (binary F1, not
weighted F1) for classification and `"neg_mean_squared_error"` for
regression, and refits the first candidate attaining the best
cross-validation score. -/
theorem grid_search_plan_and_selection
    (name : String) (grid : List (String × List String)) (taskType : String)
    (hmem : (name, grid) ∈ modelConfigs) :
    ∃ gs, trainSingleModelPlan name taskType = some gs ∧
      gs.cv = cvFolds ∧ cvFolds = 5 ∧
      gs.scoring = getScoringMetric taskType ∧
      (taskType = "classification" →
        gs.scoring = "f1" ∧ f1ScorerAverage gs.scoring = some "binary") ∧
      (taskType ≠ "classification" → gs.scoring = "neg_mean_squared_error") ∧
      gs.candidates = gridCandidates grid ∧
      (∀ cvScore c, gridSearchBest gs cvScore = some c →
        c ∈ gs.candidates ∧ ∀ cand ∈ gs.candidates, cvScore cand ≤ cvScore c) := by
  have hlookup : modelConfigs.lookup name = some grid := by
    fin_cases hmem <;> rfl
  have hne : grid.isEmpty = false := by
    fin_cases hmem <;> rfl
  refine ⟨⟨gridCandidates grid, cvFolds, getScoringMetric taskType⟩, ?_, rfl, rfl, rfl,
    ?_, ?_, rfl, ?_⟩
  · rw [trainSingleModelPlan, hlookup]
    simp [hne]
  · intro h
    rw [getScoringMetric, if_pos h]
    exact ⟨rfl, rfl⟩
  · intro h
    rw [getScoringMetric, if_neg h]
  · intro cvScore c h
    exact firstArgmax_mem_max cvScore _ c h

/-- Witness for C6: instantiated at the `logistic_regression` grid for
a classification task. -/
theorem grid_search_plan_and_selection_witness :
    ∃ gs, trainSingleModelPlan "logistic_regression" "classification" = some gs ∧
      gs.cv = cvFolds ∧ cvFolds = 5 ∧
      gs.scoring = getScoringMetric "classification" ∧
      ("classification" = "classification" →
        gs.scoring = "f1" ∧ f1ScorerAverage gs.scoring = some "binary") ∧
      ("classification" ≠ "classification" → gs.scoring = "neg_mean_squared_error") ∧
      gs.candidates = gridCandidates
        [("C", ["0.1", "1", "10", "100"]), ("penalty", ["l1", "l2"]),
          ("solver", ["liblinear", "saga"])] ∧
      (∀ cvScore c, gridSearchBest gs cvScore = some c →
        c ∈ gs.candidates ∧ ∀ cand ∈ gs.candidates, cvScore cand ≤ cvScore c) :=
  grid_search_plan_and_selection "logistic_regression"
    [("C", ["0.1", "1", "10", "100"]), ("penalty", ["l1", "l2"]),
      ("solver", ["liblinear", "saga"])] "classification" (by decide)

/-- Claim C7 (code bug): on a binary validation set the computed
classification metric set is exactly accuracy and weighted
precision/recall/F1 — ROC-AUC is *never* added, because the guarded
lookup reads `self.models.get('model', None)` from the trainer's
`models` dict, which is initialised to `{}` in `__init__` and never
written, so the probability input is always `None` (and the comment
and `Config.CLASSIFICATION_METRICS`, which lists `roc_auc`, show the
intent). -/
theorem roc_auc_omitted_for_binary_validation :
    (uniqueVals [(0 : ℚ), 1, 0, 1]).length = 2 ∧
    trainerModels.lookup "model" = none ∧
    (calculateMetrics [0, 1, 0, 1] [0, 1, 1, 1] "classification").map Prod.fst =
      ["accuracy", "precision", "recall", "f1"] ∧
    "roc_auc" ∉ (calculateMetrics [0, 1, 0, 1] [0, 1, 1, 1] "classification").map
      Prod.fst := by
  exact ⟨by decide, rfl, by with_unfolding_all decide, by with_unfolding_all decide⟩

/-! ## Scaling algebra -/

theorem sum_map_mul_right (l : List ℚ) (f : ℚ → ℚ) (a : ℚ) :
    (l.map (fun x => f x * a)).sum = (l.map f).sum * a := by
  induction l with
  | nil => simp
  | cons x t ih => simp [ih]; ring

theorem sum_map_sub_const (l : List ℚ) (c : ℚ) :
    (l.map (fun x => x - c)).sum = l.sum - (l.length : ℚ) * c := by
  induction l with
  | nil => simp
  | cons x t ih =>
    simp [ih]
    ring

theorem sum_map_center_zero (l : List ℚ) :
    (l.map (fun x => x - meanPop l)).sum = 0 := by
  rw [sum_map_sub_const, meanPop]
  by_cases h : (l.length : ℚ) = 0
  · have h0 : l = [] := by simpa using h
    simp [h0]
  · field_simp

theorem meanPop_scaled (c : List ℚ) (μ s : ℚ) (hμ : μ = meanPop c) :
    meanPop (c.map (fun x => (x - μ) / s)) = 0 := by
  have h1 : (c.map (fun x => (x - μ) / s)) = c.map (fun x => (x - μ) * s⁻¹) := by
    simp [div_eq_mul_inv]
  rw [meanPop, h1, sum_map_mul_right c (fun x => x - μ) s⁻¹, hμ, sum_map_center_zero,
    zero_mul, zero_div]

theorem varPop_scaled (c : List ℚ) (μ s : ℚ) (hμ : μ = meanPop c)
    (hs : s ^ 2 = varPop c) (hv : varPop c ≠ 0) :
    varPop (c.map (fun x => (x - μ) / s)) = 1 := by
  have hne : c ≠ [] := by
    intro he
    apply hv
    rw [he]
    simp [varPop]
  have hn : (c.length : ℚ) ≠ 0 := by
    have h2 : c.length ≠ 0 := fun h => hne (List.length_eq_zero.mp h)
    exact_mod_cast h2
  have hm0 := meanPop_scaled c μ s hμ
  rw [varPop, hm0]
  simp only [sub_zero, List.map_map, List.length_map]
  have hfun : ((fun x => x ^ 2) ∘ fun x => (x - μ) / s) =
      fun x => (x - μ) ^ 2 * (s ^ 2)⁻¹ := by
    funext x
    simp only [Function.comp_apply, div_eq_mul_inv]
    ring
  rw [hfun, sum_map_mul_right c (fun x => (x - μ) ^ 2) ((s ^ 2)⁻¹), hμ]
  have hS : (c.map (fun x => (x - meanPop c) ^ 2)).sum = varPop c * (c.length : ℚ) := by
    rw [varPop]
    field_simp
  rw [hS, hs]
  field_simp

/-- `scaleFrame` with parameters fitted on exactly the frame being
scaled: column names survive, every scaled column has population mean
0, and every column of nonzero variance is scaled to population
variance 1 (a zero-variance column keeps scale 1 and stays constant). -/
theorem scaleFrame_cols_spec (ps : List (ℚ × ℚ)) (X Y : NumFrame)
    (hfit : scalerFits ps X) (hok : scaleFrame ps X = .ok Y) :
    Y.names = X.names ∧
    List.Forall₂ (fun c y => meanPop y = 0 ∧ (varPop c ≠ 0 → varPop y = 1))
      X.cols Y.cols := by
  have hlen : ps.length = X.cols.length := List.Forall₂.length_eq hfit
  unfold scaleFrame at hok
  rw [if_pos hlen] at hok
  have hy : Y = ⟨X.names,
      List.zipWith (fun p c => c.map (fun x => (x - p.1) / p.2)) ps X.cols⟩ := by
    cases hok; rfl
  subst hy
  refine ⟨rfl, ?_⟩
  have main : ∀ (ps2 : List (ℚ × ℚ)) (cs : List (List ℚ)),
      List.Forall₂ (fun p c => p.1 = meanPop c ∧
        (if varPop c = 0 then p.2 = 1 else 0 ≤ p.2 ∧ p.2 ^ 2 = varPop c)) ps2 cs →
      List.Forall₂ (fun c y => meanPop y = 0 ∧ (varPop c ≠ 0 → varPop y = 1)) cs
        (List.zipWith (fun p c => c.map (fun x => (x - p.1) / p.2)) ps2 cs) := by
    intro ps2 cs h
    induction h with
    | nil => simp
    | @cons p c pt ct hpc _ ih =>
      simp only [List.zipWith_cons_cons]
      refine List.Forall₂.cons ⟨meanPop_scaled c p.1 p.2 hpc.1, ?_⟩ ih
      intro hv
      have h2 := hpc.2
      rw [if_neg hv] at h2
      exact varPop_scaled c p.1 p.2 hpc.1 h2.2 hv
  exact main ps X.cols hfit

theorem exceptBind_ok {ε α β : Type} {e : Except ε α} {f : α → Except ε β} {b : β}
    (h : (e >>= f) = .ok b) : ∃ a, e = .ok a ∧ f a = .ok b := by
  cases e with
  | error msg =>
    rw [show ((Except.error msg : Except ε α) >>= f) = Except.error msg from rfl] at h
    cases h
  | ok a =>
    rw [show ((Except.ok a : Except ε α) >>= f) = f a from rfl] at h
    exact ⟨a, rfl, h⟩

/-- Claim C2, counterexample: a constant training column breaks the
unconditional "unit variance" part of the claim — sklearn maps its
zero variance to scale 1, so the fitted scaler on the column `[5, 5]`
is exactly `(mean 5, scale 1)` and the scaled column is `[0, 0]`:
mean 0, but variance 0, not 1. -/
theorem scaled_constant_train_column_variance_not_one :
    scalerFits [((5 : ℚ), 1)] ⟨["overRuns"], [[5, 5]]⟩ ∧
    scaleFrame [((5 : ℚ), 1)] ⟨["overRuns"], [[5, 5]]⟩ =
      .ok ⟨["overRuns"], [[0, 0]]⟩ ∧
    meanPop [(0 : ℚ), 0] = 0 ∧ varPop [(0 : ℚ), 0] ≠ 1 := by
  refine ⟨?_, by with_unfolding_all rfl, by with_unfolding_all decide,
    by with_unfolding_all decide⟩
  refine List.Forall₂.cons ⟨by with_unfolding_all decide, ?_⟩ List.Forall₂.nil
  have hv : varPop [(5 : ℚ), 5] = 0 := by with_unfolding_all decide
  simp [hv]

/-- Claim C2, amended: the split operation fits the scaler exclusively
on the training partition (`scalerFits` constrains `ps` by `X_train`
alone) and applies those same fitted parameters unchanged to the
validation and test partitions; consequently each scaled
training-partition column has mean 0, and unit variance whenever the
column is non-constant on the training partition (a constant column is
scaled by 1 and stays at constant 0, variance 0). Validation/test
columns are transformed with the training parameters and need not be
standardized. -/
theorem scaling_fit_on_train_only_and_standardizes_train
    (df : Frame) (targetName : String) (tSize vSize : ℚ)
    (perm1 perm2 : List ℕ) (ps : List (ℚ × ℚ))
    (Xtr Xv Xte : NumFrame) (ytr yv yte : List (Option ℚ))
    (XtrS XvS XteS : NumFrame) (ytr2 yv2 yte2 : List (Option ℚ))
    (hsplit : splitFeatures df targetName tSize vSize perm1 perm2 =
      .ok (Xtr, Xv, Xte, ytr, yv, yte))
    (hfit : scalerFits ps Xtr)
    (hprep : prepareTrainTestData df targetName tSize vSize perm1 perm2 ps =
      .ok (XtrS, XvS, XteS, ytr2, yv2, yte2)) :
    scaleFrame ps Xtr = .ok XtrS ∧ scaleFrame ps Xv = .ok XvS ∧
    scaleFrame ps Xte = .ok XteS ∧
    List.Forall₂ (fun c y => meanPop y = 0 ∧ (varPop c ≠ 0 → varPop y = 1))
      Xtr.cols XtrS.cols := by
  unfold prepareTrainTestData at hprep
  rw [hsplit] at hprep
  obtain ⟨a, ha, hk⟩ := exceptBind_ok hprep
  have ha2 : a = (Xtr, Xv, Xte, ytr, yv, yte) := by cases ha; rfl
  subst ha2
  obtain ⟨X1, h1, hk2⟩ := exceptBind_ok hk
  obtain ⟨X2, h2, hk3⟩ := exceptBind_ok hk2
  obtain ⟨X3, h3, hk4⟩ := exceptBind_ok hk3
  have hfin : X1 = XtrS ∧ X2 = XvS ∧ X3 = XteS := by
    cases hk4
    exact ⟨rfl, rfl, rfl⟩
  obtain ⟨e1, e2, e3⟩ := hfin
  rw [e1] at h1
  rw [e2] at h2
  rw [e3] at h3
  exact ⟨h1, h2, h3, (scaleFrame_cols_spec ps Xtr XtrS hfit h1).2⟩

/-- Witness for C2: a three-row frame split into a two-row training
partition with columns `[1, 0]` and `[0, 2]`; the fitted scaler is
`[(1/2, 1/2), (1, 1)]`, the scaled training columns `[1, -1]` and
`[-1, 1]` have mean 0 and variance 1, and the same parameters are the
ones applied to the validation and test partitions. -/
theorem scaling_fit_on_train_only_witness :
    scaleFrame [((1 / 2 : ℚ), 1 / 2), (1, 1)]
        ⟨["overWickets", "runRate"], [[1, 0], [0, 2]]⟩ =
      .ok ⟨["overWickets", "runRate"], [[1, -1], [-1, 1]]⟩ ∧
    scaleFrame [((1 / 2 : ℚ), 1 / 2), (1, 1)]
        ⟨["overWickets", "runRate"], [[], []]⟩ =
      .ok ⟨["overWickets", "runRate"], [[], []]⟩ ∧
    scaleFrame [((1 / 2 : ℚ), 1 / 2), (1, 1)]
        ⟨["overWickets", "runRate"], [[0], [5]]⟩ =
      .ok ⟨["overWickets", "runRate"], [[-1], [4]]⟩ ∧
    List.Forall₂ (fun c y => meanPop y = 0 ∧ (varPop c ≠ 0 → varPop y = 1))
      (NumFrame.mk ["overWickets", "runRate"] [[1, 0], [0, 2]]).cols
      (NumFrame.mk ["overWickets", "runRate"] [[1, -1], [-1, 1]]).cols :=
  scaling_fit_on_train_only_and_standardizes_train
    ⟨[⟨"overWickets", .num [some 0, some 1, some 0]⟩,
      ⟨"runRate", .num [some 5, some 0, some 2]⟩]⟩
    "wicket_occurrence" (1 / 3) 0 [0, 1, 2] [0, 1]
    [((1 / 2 : ℚ), 1 / 2), (1, 1)]
    ⟨["overWickets", "runRate"], [[1, 0], [0, 2]]⟩
    ⟨["overWickets", "runRate"], [[], []]⟩
    ⟨["overWickets", "runRate"], [[0], [5]]⟩
    [some 1, some 0] [] [some 0]
    ⟨["overWickets", "runRate"], [[1, -1], [-1, 1]]⟩
    ⟨["overWickets", "runRate"], [[], []]⟩
    ⟨["overWickets", "runRate"], [[-1], [4]]⟩
    [some 1, some 0] [] [some 0]
    (by with_unfolding_all rfl)
    (by
      refine List.Forall₂.cons ⟨by with_unfolding_all decide, ?_⟩
        (List.Forall₂.cons ⟨by with_unfolding_all decide, ?_⟩ List.Forall₂.nil)
      · rw [if_neg (by with_unfolding_all decide : ¬ varPop [(1 : ℚ), 0] = 0)]
        exact ⟨by with_unfolding_all decide, by with_unfolding_all decide⟩
      · rw [if_neg (by with_unfolding_all decide : ¬ varPop [(0 : ℚ), 2] = 0)]
        exact ⟨by with_unfolding_all decide, by with_unfolding_all decide⟩)
    (by with_unfolding_all rfl)

/-! ## Split bookkeeping lemmas -/

theorem coerceCol_len (d : ColData) : (coerceCol d).length = d.len := by
  cases d <;> simp [coerceCol, ColData.len]

theorem yCellList_len (d : ColData) : (yCellList d).length = d.len := by
  cases d <;> simp [yCellList, ColData.len]

theorem createTargets_props (f : Frame) (name : String) (f2 : Frame)
    (hok : createTargets f name = .ok f2) (hWF : f.WF) :
    f2.WF ∧ f2.nrows = f.nrows ∧
    ∃ td, f2.getCol? "target" = some ⟨"target", td⟩ ∧ td.len = f.nrows := by
  unfold createTargets at hok
  cases hl : targetFeatures.lookup name with
  | none => rw [hl] at hok; cases hok
  | some cfg =>
    rw [hl] at hok
    simp only [] at hok
    cases hc : f.getCol? cfg.target_column with
    | none =>
      simp only [hc] at hok
      cases hok
    | some col =>
      simp only [hc] at hok
      have hcl : col.data.len = f.nrows := hWF col (getCol?_mem f _ col hc)
      cases hty : cfg.type with
      | classification =>
        rw [hty] at hok
        obtain ⟨cs, hcs, hset⟩ := exceptBind_ok hok
        have hf2 : f2 = f.setCol "target" (classifyCells cs (cfg.threshold.getD 1)) := by
          cases hset; rfl
        have hlen : (classifyCells cs (cfg.threshold.getD 1)).len = f.nrows := by
          rw [classifyCells_len, numCellsE_len col.data cs hcs, hcl]
        obtain ⟨hwf2, hnr⟩ := setCol_preserves f "target" _ hWF hlen
        exact ⟨by rw [hf2]; exact hwf2, by rw [hf2]; exact hnr,
          ⟨_, by rw [hf2]; exact getCol?_setCol_self f "target" _, hlen⟩⟩
      | regression =>
        rw [hty] at hok
        have hf2 : f2 = f.setCol "target" col.data := by cases hok; rfl
        obtain ⟨hwf2, hnr⟩ := setCol_preserves f "target" col.data hWF hcl
        exact ⟨by rw [hf2]; exact hwf2, by rw [hf2]; exact hnr,
          ⟨col.data, by rw [hf2]; exact getCol?_setCol_self f "target" _, hcl⟩⟩

theorem applyPerm_length (perm : List ℕ) (l : List α)
    (h : ∀ i ∈ perm, i < l.length) :
    (applyPerm perm l).length = perm.length := by
  induction perm with
  | nil => rfl
  | cons i t ih =>
    have hi : i < l.length := h i (List.mem_cons_self i t)
    obtain ⟨a, ha⟩ : ∃ a, l.get? i = some a :=
      ⟨l.get ⟨i, hi⟩, List.get?_eq_get hi⟩
    have ht := ih (fun j hj => h j (List.mem_cons_of_mem i hj))
    unfold applyPerm at ht ⊢
    rw [List.filterMap_cons, ha, List.length_cons, ht, List.length_cons]

theorem perm_range_bound (perm : List ℕ) (n : ℕ) (hp : perm.Perm (List.range n)) :
    ∀ i ∈ perm, i < n :=
  fun i hi => List.mem_range.mp (hp.mem_iff.mp hi)

theorem perm_range_length (perm : List ℕ) (n : ℕ) (hp : perm.Perm (List.range n)) :
    perm.length = n := by
  rw [hp.length_eq, List.length_range]

theorem take_drop_length_sum (l : List α) (k : ℕ) :
    (l.drop k).length + (l.take k).length = l.length := by
  simp [List.length_take, List.length_drop]
  omega

theorem applyPerm_perm_length (perm : List ℕ) (n : ℕ) (l : List α)
    (hp : perm.Perm (List.range n)) (hl : l.length = n) :
    (applyPerm perm l).length = n := by
  rw [applyPerm_length perm l
    (fun i hi => hl ▸ perm_range_bound perm n hp i hi), perm_range_length perm n hp]

theorem scaleFrame_col_lengths (ps : List (ℚ × ℚ)) (X Y : NumFrame) (L : ℕ)
    (hok : scaleFrame ps X = .ok Y) (h : ∀ c ∈ X.cols, c.length = L) :
    Y.names = X.names ∧ ∀ y ∈ Y.cols, y.length = L := by
  unfold scaleFrame at hok
  by_cases hl : ps.length = X.cols.length
  · rw [if_pos hl] at hok
    have hy : Y = ⟨X.names,
        List.zipWith (fun p c => c.map (fun x => (x - p.1) / p.2)) ps X.cols⟩ := by
      cases hok; rfl
    subst hy
    refine ⟨rfl, ?_⟩
    have aux : ∀ (ps2 : List (ℚ × ℚ)) (cs : List (List ℚ)),
        (∀ c ∈ cs, c.length = L) →
        ∀ y ∈ List.zipWith (fun p c => c.map (fun x => (x - p.1) / p.2)) ps2 cs,
          y.length = L := by
      intro ps2
      induction ps2 with
      | nil => intro cs h2 y hy; simp at hy
      | cons p pt ih =>
        intro cs h2 y hy
        cases cs with
        | nil => simp at hy
        | cons c ct =>
          simp only [List.zipWith_cons_cons, List.mem_cons] at hy
          rcases hy with hy | hy
          · rw [hy, List.length_map]
            exact h2 c (List.mem_cons_self c ct)
          · exact ih ct (fun c2 hc2 => h2 c2 (List.mem_cons_of_mem c hc2)) y hy
    exact aux ps X.cols h
  · rw [if_neg hl] at hok
    cases hok

/-- Claim C3: the two-stage split (test fraction first, then the
validation fraction re-expressed as `v / (1 - t)` on the remainder) is
a row-exact three-way partition — the returned train, validation and
test row counts sum exactly to the frame's row count — and the three
scaled feature matrices carry identical column names in identical
order, every column holding exactly its partition's row count. The
shuffles of the two `train_test_split` calls are the permutations
`perm1`/`perm2` of the row indices. -/
theorem split_partition_exact_and_columns_aligned
    (df : Frame) (targetName : String) (tSize vSize : ℚ)
    (perm1 perm2 : List ℕ) (ps : List (ℚ × ℚ))
    (XtrS XvS XteS : NumFrame) (ytr yv yte : List (Option ℚ))
    (hWF : df.WF)
    (hp1 : perm1.Perm (List.range df.nrows))
    (hp2 : perm2.Perm (List.range (df.nrows - ceilFrac df.nrows tSize)))
    (hok : prepareTrainTestData df targetName tSize vSize perm1 perm2 ps =
      .ok (XtrS, XvS, XteS, ytr, yv, yte)) :
    ytr.length + yv.length + yte.length = df.nrows ∧
    XtrS.names = XvS.names ∧ XvS.names = XteS.names ∧
    (∀ c ∈ XtrS.cols, c.length = ytr.length) ∧
    (∀ c ∈ XvS.cols, c.length = yv.length) ∧
    (∀ c ∈ XteS.cols, c.length = yte.length) := by
  unfold prepareTrainTestData at hok
  obtain ⟨S, hsplit, hk⟩ := exceptBind_ok hok
  obtain ⟨Xtr, Xv, Xte, ytr, yv, yte⟩ := S
  obtain ⟨X1, h1, hk2⟩ := exceptBind_ok hk
  obtain ⟨X2, h2, hk3⟩ := exceptBind_ok hk2
  obtain ⟨X3, h3, hk4⟩ := exceptBind_ok hk3
  cases hk4
  unfold splitFeatures at hsplit
  obtain ⟨dft, hct, hks⟩ := exceptBind_ok hsplit
  simp only [trainTestSplitNF, Except.ok.injEq, Prod.mk.injEq] at hks
  obtain ⟨e1, e2, e3, e4, e5, e6⟩ := hks
  obtain ⟨hwf2, hnr2, td, hgc, htdlen⟩ := createTargets_props df targetName dft hct hWF
  rw [hgc] at e1 e2 e3 e4 e5 e6
  simp only [] at e1 e2 e3 e4 e5 e6
  have hyn : (yCellList td).length = df.nrows := by rw [yCellList_len, htdlen]
  rw [hyn] at e1 e2 e3 e4 e5 e6
  have hn1 : (applyPerm perm1 (yCellList td)).length = df.nrows :=
    applyPerm_perm_length perm1 df.nrows (yCellList td) hp1 hyn
  have hytemp : ((applyPerm perm1 (yCellList td)).drop
      (ceilFrac df.nrows tSize)).length = df.nrows - ceilFrac df.nrows tSize := by
    rw [List.length_drop, hn1]
  rw [hytemp] at e1 e2 e4 e5
  have hn2 : (applyPerm perm2 ((applyPerm perm1 (yCellList td)).drop
      (ceilFrac df.nrows tSize))).length = df.nrows - ceilFrac df.nrows tSize :=
    applyPerm_perm_length perm2 _ _ hp2 hytemp
  have hXlen : ∀ c ∈ (dft.cols.filter
      (fun c => ¬ (excludedColumns dft).contains c.name)).map
        (fun c => coerceCol c.data), c.length = df.nrows := by
    intro c hc
    rcases List.mem_map.mp hc with ⟨fc, hfc, hfc2⟩
    rw [← hfc2, coerceCol_len, hwf2 fc (List.mem_of_mem_filter hfc), hnr2]
  -- row counts of the three y partitions
  have hytr : ytr.length = (df.nrows - ceilFrac df.nrows tSize) -
      ceilFrac (df.nrows - ceilFrac df.nrows tSize) (vSize / (1 - tSize)) := by
    rw [← e4, List.length_drop, hn2]
  have hyv : yv.length = min
      (ceilFrac (df.nrows - ceilFrac df.nrows tSize) (vSize / (1 - tSize)))
      (df.nrows - ceilFrac df.nrows tSize) := by
    rw [← e5, List.length_take, hn2]
  have hyte : yte.length = min (ceilFrac df.nrows tSize) df.nrows := by
    rw [← e6, List.length_take, hn1]
  have hsum : ytr.length + yv.length + yte.length = df.nrows := by
    rw [hytr, hyv, hyte]
    omega
  -- per-column lengths of the three unscaled feature matrices
  have hXtemp : ∀ c ∈ ((dft.cols.filter
      (fun c => ¬ (excludedColumns dft).contains c.name)).map
        (fun c => coerceCol c.data)).map
          (fun c => (applyPerm perm1 c).drop (ceilFrac df.nrows tSize)),
      c.length = df.nrows - ceilFrac df.nrows tSize := by
    intro c hc
    rcases List.mem_map.mp hc with ⟨c0, hc0, hc02⟩
    rw [← hc02, List.length_drop,
      applyPerm_perm_length perm1 df.nrows c0 hp1 (hXlen c0 hc0)]
  have hXtrain : ∀ c ∈ Xtr.cols, c.length = ytr.length := by
    rw [← e1]
    intro c hc
    rcases List.mem_map.mp hc with ⟨c1, hc1, hc12⟩
    rw [← hc12, List.length_drop,
      applyPerm_perm_length perm2 _ c1 hp2 (hXtemp c1 hc1), hytr]
  have hXval : ∀ c ∈ Xv.cols, c.length = yv.length := by
    rw [← e2]
    intro c hc
    rcases List.mem_map.mp hc with ⟨c1, hc1, hc12⟩
    rw [← hc12, List.length_take,
      applyPerm_perm_length perm2 _ c1 hp2 (hXtemp c1 hc1), hyv]
  have hXtest : ∀ c ∈ Xte.cols, c.length = yte.length := by
    rw [← e3]
    intro c hc
    rcases List.mem_map.mp hc with ⟨c0, hc0, hc02⟩
    rw [← hc02, List.length_take,
      applyPerm_perm_length perm1 df.nrows c0 hp1 (hXlen c0 hc0), hyte]
  obtain ⟨hnm1, hlen1⟩ := scaleFrame_col_lengths ps Xtr XtrS ytr.length h1 hXtrain
  obtain ⟨hnm2, hlen2⟩ := scaleFrame_col_lengths ps Xv XvS yv.length h2 hXval
  obtain ⟨hnm3, hlen3⟩ := scaleFrame_col_lengths ps Xte XteS yte.length h3 hXtest
  have hnames1 : Xtr.names = (dft.cols.filter
      (fun c => ¬ (excludedColumns dft).contains c.name)).map Col.name := by
    rw [← e1]
  have hnames2 : Xv.names = (dft.cols.filter
      (fun c => ¬ (excludedColumns dft).contains c.name)).map Col.name := by
    rw [← e2]
  have hnames3 : Xte.names = (dft.cols.filter
      (fun c => ¬ (excludedColumns dft).contains c.name)).map Col.name := by
    rw [← e3]
  exact ⟨hsum, by rw [hnm1, hnm2, hnames1, hnames2],
    by rw [hnm2, hnm3, hnames2, hnames3], hlen1, hlen2, hlen3⟩

/-- Witness for C3: a five-row frame with `test_size = 1/5` and
`validation_size = 1/5` splits into 3 + 1 + 1 rows (summing to 5
exactly), with all three feature matrices sharing the column list
`["overWickets", "runRate"]`. -/
theorem split_partition_exact_witness :
    ([some (0 : ℚ), some 1, some 0] : List (Option ℚ)).length +
      ([some (1 : ℚ)] : List (Option ℚ)).length +
      ([some (1 : ℚ)] : List (Option ℚ)).length =
      (Frame.mk [⟨"overWickets", .num [some 0, some 1, some 0, some 2, some 1]⟩,
        ⟨"runRate", .num [some 1, some 2, some 3, some 4, some 5]⟩]).nrows ∧
    (NumFrame.mk ["overWickets", "runRate"] [[0, 1, 0], [1, 2, 3]]).names =
      (NumFrame.mk ["overWickets", "runRate"] [[2], [4]]).names ∧
    (NumFrame.mk ["overWickets", "runRate"] [[2], [4]]).names =
      (NumFrame.mk ["overWickets", "runRate"] [[1], [5]]).names ∧
    (∀ c ∈ (NumFrame.mk ["overWickets", "runRate"] [[0, 1, 0], [1, 2, 3]]).cols,
      c.length = ([some (0 : ℚ), some 1, some 0] : List (Option ℚ)).length) ∧
    (∀ c ∈ (NumFrame.mk ["overWickets", "runRate"] [[2], [4]]).cols,
      c.length = ([some (1 : ℚ)] : List (Option ℚ)).length) ∧
    (∀ c ∈ (NumFrame.mk ["overWickets", "runRate"] [[1], [5]]).cols,
      c.length = ([some (1 : ℚ)] : List (Option ℚ)).length) :=
  split_partition_exact_and_columns_aligned
    ⟨[⟨"overWickets", .num [some 0, some 1, some 0, some 2, some 1]⟩,
      ⟨"runRate", .num [some 1, some 2, some 3, some 4, some 5]⟩]⟩
    "wicket_occurrence" (1 / 5) (1 / 5) [4, 0, 1, 2, 3] [3, 0, 1, 2]
    [(0, 1), (0, 1)]
    ⟨["overWickets", "runRate"], [[0, 1, 0], [1, 2, 3]]⟩
    ⟨["overWickets", "runRate"], [[2], [4]]⟩
    ⟨["overWickets", "runRate"], [[1], [5]]⟩
    [some 0, some 1, some 0] [some 1] [some 1]
    (by decide) (by decide) (by with_unfolding_all decide)
    (by with_unfolding_all rfl)

end CricketML
